import Mathlib

/-!
Verification of the waku-relay gossipsub router against its specification.

The definitions below are a shallow embedding of the relevant source
functions of the repository (crate `waku-relay`): the Waku deterministic
message id (`message_id.rs`), the router's message admission, publication,
validation-report, GRAFT, IHAVE/IWANT and heartbeat logic
(`gossipsub/behaviour.rs`), the message cache (`gossipsub/mcache.rs`) and
the outgoing RPC fragmentation (`gossipsub/rpc/fragmentation.rs`).
Machine integers are modelled as `Nat` (wrapping is made explicit where the
source can wrap), hash maps and sets as association lists, and `Instant`s
as natural numbers.
-/

namespace WakuVerify

/-! ## SHA-256

An executable SHA-256 over byte lists, used by the Waku deterministic
message id (`waku-relay/src/message_id.rs` uses the `sha2` crate).
Words are `Nat`s reduced modulo 2^32. -/

/-- 32-bit modular addition. -/
def add32 (a b : Nat) : Nat := (a + b) % 4294967296

/-- 32-bit right rotation. -/
def rotr32 (n x : Nat) : Nat := ((x >>> n) ||| (x <<< (32 - n))) % 4294967296

/-- SHA-256 `Ch` function (bitwise not expressed as xor with the 32-bit mask). -/
def ch32 (x y z : Nat) : Nat := (x &&& y) ^^^ ((x ^^^ 4294967295) &&& z)

/-- SHA-256 `Maj` function. -/
def maj32 (x y z : Nat) : Nat := (x &&& y) ^^^ (x &&& z) ^^^ (y &&& z)

/-- SHA-256 Σ₀. -/
def bigSigma0 (x : Nat) : Nat := rotr32 2 x ^^^ rotr32 13 x ^^^ rotr32 22 x

/-- SHA-256 Σ₁. -/
def bigSigma1 (x : Nat) : Nat := rotr32 6 x ^^^ rotr32 11 x ^^^ rotr32 25 x

/-- SHA-256 σ₀. -/
def smallSigma0 (x : Nat) : Nat := rotr32 7 x ^^^ rotr32 18 x ^^^ (x >>> 3)

/-- SHA-256 σ₁. -/
def smallSigma1 (x : Nat) : Nat := rotr32 17 x ^^^ rotr32 19 x ^^^ (x >>> 10)

/-- The 64 SHA-256 round constants. -/
def sha256K : List Nat :=
  [1116352408, 1899447441, 3049323471, 3921009573, 961987163, 1508970993,
   2453635748, 2870763221, 3624381080, 310598401, 607225278, 1426881987,
   1925078388, 2162078206, 2614888103, 3248222580, 3835390401, 4022224774,
   264347078, 604807628, 770255983, 1249150122, 1555081692, 1996064986,
   2554220882, 2821834349, 2952996808, 3210313671, 3336571891, 3584528711,
   113926993, 338241895, 666307205, 773529912, 1294757372, 1396182291,
   1695183700, 1986661051, 2177026350, 2456956037, 2730485921, 2820302411,
   3259730800, 3345764771, 3516065817, 3600352804, 4094571909, 275423344,
   430227734, 506948616, 659060556, 883997877, 958139571, 1322822218,
   1537002063, 1747873779, 1955562222, 2024104815, 2227730452, 2361852424,
   2428436474, 2756734187, 3204031479, 3329325298]

/-- The SHA-256 initial hash value. -/
def sha256H0 : List Nat :=
  [1779033703, 3144134277, 1013904242, 2773480762,
   1359893119, 2600822924, 528734635, 1541459225]

/-- Group bytes into big-endian 32-bit words. -/
def bytesToWords : List Nat → List Nat
  | a :: b :: c :: d :: rest => (((a * 256 + b) * 256 + c) * 256 + d) :: bytesToWords rest
  | _ => []

/-- A 64-bit value as 8 big-endian bytes. -/
def be64 (n : Nat) : List Nat :=
  [(n >>> 56) % 256, (n >>> 48) % 256, (n >>> 40) % 256, (n >>> 32) % 256,
   (n >>> 24) % 256, (n >>> 16) % 256, (n >>> 8) % 256, n % 256]

/-- Number of zero bytes in the SHA-256 padding for a message of `n` bytes. -/
def sha256PadZeroes (n : Nat) : Nat := (119 - n % 64) % 64

/-- SHA-256 padding: `0x80`, zeroes up to 56 mod 64, then the bit length. -/
def sha256Pad (msg : List Nat) : List Nat :=
  msg ++ 128 :: List.replicate (sha256PadZeroes msg.length) 0 ++ be64 (8 * msg.length)

/-- Split a byte list into 64-byte blocks, driven by a block-count fuel. -/
def toBlocksAux : Nat → List Nat → List (List Nat)
  | 0, _ => []
  | n + 1, l => l.take 64 :: toBlocksAux n (l.drop 64)

/-- Split a (padded) byte list into its 64-byte blocks. -/
def toBlocks (l : List Nat) : List (List Nat) := toBlocksAux (l.length / 64) l

/-- One step of the message-schedule extension: append word `w[i] =
σ₁(w[i−2]) + w[i−7] + σ₀(w[i−15]) + w[i−16]`. -/
def scheduleStep (w : List Nat) : List Nat :=
  w ++ [add32 (add32 (smallSigma1 (w.getD (w.length - 2) 0)) (w.getD (w.length - 7) 0))
          (add32 (smallSigma0 (w.getD (w.length - 15) 0)) (w.getD (w.length - 16) 0))]

/-- Iterate the schedule extension. -/
def scheduleExtend : Nat → List Nat → List Nat
  | 0, w => w
  | n + 1, w => scheduleExtend n (scheduleStep w)

/-- The 64-word message schedule of a block. -/
def schedule (block : List Nat) : List Nat := scheduleExtend 48 (bytesToWords block)

/-- One SHA-256 compression round; the state is the 8 working variables
`[a,b,c,d,e,f,g,h]` and `kw` is the round constant plus schedule word. -/
def compressRound (st : List Nat) (kw : Nat) : List Nat :=
  let a := st.getD 0 0
  let b := st.getD 1 0
  let c := st.getD 2 0
  let d := st.getD 3 0
  let e := st.getD 4 0
  let f := st.getD 5 0
  let g := st.getD 6 0
  let h := st.getD 7 0
  let t1 := add32 h (add32 (bigSigma1 e) (add32 (ch32 e f g) kw))
  let t2 := add32 (bigSigma0 a) (maj32 a b c)
  [add32 t1 t2, a, b, c, add32 d t1, e, f, g]

/-- Compress one 64-byte block into the running hash state. -/
def compressBlock (h : List Nat) (block : List Nat) : List Nat :=
  let kw := List.zipWith add32 sha256K (schedule block)
  List.zipWith add32 h (kw.foldl compressRound h)

/-- Serialize 32-bit words as big-endian bytes. -/
def wordsToBytes (w : List Nat) : List Nat :=
  w.flatMap (fun x => [(x >>> 24) % 256, (x >>> 16) % 256, (x >>> 8) % 256, x % 256])

/-- SHA-256 of a byte list. -/
def sha256 (msg : List Nat) : List Nat :=
  wordsToBytes ((toBlocks (sha256Pad msg)).foldl compressBlock sha256H0)

/-! ### SHA-256 digest length -/

theorem length_compressRound (st : List Nat) (kw : Nat) :
    (compressRound st kw).length = 8 := rfl

theorem length_foldl_compressRound (l : List Nat) (st : List Nat) (h : st.length = 8) :
    (l.foldl compressRound st).length = 8 := by
  induction l generalizing st with
  | nil => simpa using h
  | cons x xs ih => exact ih _ (length_compressRound st x)

theorem length_compressBlock (h : List Nat) (block : List Nat) (hl : h.length = 8) :
    (compressBlock h block).length = 8 := by
  unfold compressBlock
  rw [List.length_zipWith, hl, length_foldl_compressRound _ _ hl]
  rfl

theorem length_foldl_compressBlock (bs : List (List Nat)) (h : List Nat) (hl : h.length = 8) :
    (bs.foldl compressBlock h).length = 8 := by
  induction bs generalizing h with
  | nil => simpa using hl
  | cons b bs ih => exact ih _ (length_compressBlock h b hl)

theorem length_wordsToBytes (w : List Nat) : (wordsToBytes w).length = 4 * w.length := by
  induction w with
  | nil => rfl
  | cons x xs ih =>
      simp only [wordsToBytes, List.flatMap_cons] at ih ⊢
      simp only [List.length_append, ih, List.length_cons, List.length_nil]
      omega

/-- SHA-256 always produces a 32-byte digest. -/
theorem sha256_length (msg : List Nat) : (sha256 msg).length = 32 := by
  unfold sha256
  rw [length_wordsToBytes, length_foldl_compressBlock _ sha256H0 rfl]

/-! ## Waku deterministic message id (`waku-relay/src/message_id.rs`)

`WakuMessage` is the protobuf message of `waku-core` (fields `payload`,
`content_topic`, optional `meta`); `compute_deterministic_message_hash`
feeds the pubsub topic, the payload, the content topic and (when present)
the meta field into one SHA-256 computation, exactly as the incremental
`hasher.update` calls of the source concatenate them. -/

structure WakuMessage where
  payload : List Nat
  content_topic : List Nat
  meta : Option (List Nat)

/-- `compute_deterministic_message_hash` from `waku-relay/src/message_id.rs`. -/
def compute_deterministic_message_hash (topic : List Nat) (message : WakuMessage) : List Nat :=
  sha256 (topic ++ message.payload ++ message.content_topic ++
    (match message.meta with
     | some meta => meta
     | none => []))

/-- Bytes of the pubsub topic "/waku/2/default-waku/proto". -/
def rfcPubsubTopic : List Nat :=
  [47, 119, 97, 107, 117, 47, 50, 47, 100, 101, 102, 97, 117, 108, 116, 45,
   119, 97, 107, 117, 47, 112, 114, 111, 116, 111]

/-- Bytes of the content topic "/waku/2/default-content/proto". -/
def rfcContentTopic : List Nat :=
  [47, 119, 97, 107, 117, 47, 50, 47, 100, 101, 102, 97, 117, 108, 116, 45,
   99, 111, 110, 116, 101, 110, 116, 47, 112, 114, 111, 116, 111]

/-- RFC 14 test-vector 1 message: payload `0x010203045445535405060708`,
meta `0x73757065722d736563726574`. -/
def rfcMessage1 : WakuMessage :=
  { payload := [1, 2, 3, 4, 84, 69, 83, 84, 5, 6, 7, 8]
    content_topic := rfcContentTopic
    meta := some [115, 117, 112, 101, 114, 45, 115, 101, 99, 114, 101, 116] }

/-- RFC 14 test-vector 1 expected digest
`0x4fdde1099c9f77f6dae8147b6b3179aba1fc8e14a7bf35203fc253ee479f135f`. -/
def rfcDigest1 : List Nat :=
  [79, 221, 225, 9, 156, 159, 119, 246, 218, 232, 20, 123, 107, 49, 121, 171,
   161, 252, 142, 20, 167, 191, 53, 32, 63, 194, 83, 238, 71, 159, 19, 95]

/-- Claim C1: for every message whose payload decodes as a `WakuMessage`, the
Waku relay message identifier is SHA-256 over the concatenation of the pubsub
topic, the payload, the content topic and the meta field when present, it is
always 32 bytes long, and on the RFC 14 test vector (topic
"/waku/2/default-waku/proto", payload 0x010203045445535405060708, content
topic "/waku/2/default-content/proto", meta 0x73757065722d736563726574) it
equals 0x4fdde1099c9f77f6dae8147b6b3179aba1fc8e14a7bf35203fc253ee479f135f. -/
theorem claim_C1 :
    (∀ (topic : List Nat) (m : WakuMessage),
      compute_deterministic_message_hash topic m
        = sha256 (topic ++ m.payload ++ m.content_topic ++ m.meta.getD [])
      ∧ (compute_deterministic_message_hash topic m).length = 32)
    ∧ compute_deterministic_message_hash rfcPubsubTopic rfcMessage1 = rfcDigest1 := by
  constructor
  · intro topic m
    refine ⟨?_, sha256_length _⟩
    cases h : m.meta <;> simp [compute_deterministic_message_hash, h]
  · set_option maxRecDepth 100000 in decide

/-! ## Router model: basic types

The gossipsub router of `gossipsub/behaviour.rs`, with peers, message ids and
topic hashes modelled as natural numbers, hash maps and sets as association
lists, and instants as natural numbers. -/

abbrev PeerId := Nat
abbrev MessageId := Nat
abbrev TopicHash := Nat
abbrev FastMessageId := Nat
abbrev Instant := Nat

/-- Association-list lookup with propositional key equality. -/
def alLookup {α β : Type} [DecidableEq α] (k : α) : List (α × β) → Option β
  | [] => none
  | (k', v) :: rest => if k = k' then some v else alLookup k rest

/-- Association-list insert-or-replace. -/
def alInsert {α β : Type} [DecidableEq α] (k : α) (v : β) : List (α × β) → List (α × β)
  | [] => [(k, v)]
  | (k', v') :: rest => if k = k' then (k, v) :: rest else (k', v') :: alInsert k v rest

/-- Set-like insert on a list (the model of `HashSet::insert`). -/
def setInsert {α : Type} [DecidableEq α] (x : α) (s : List α) : List α :=
  if x ∈ s then s else s ++ [x]

/-- `RawMessage` of `gossipsub/types.rs`. -/
structure RawMessage where
  source : Option PeerId
  data : List Nat
  sequence_number : Option Nat
  topic : TopicHash
  signature : Option (List Nat)
  key : Option (List Nat)
deriving DecidableEq

/-- `Message` (a `RawMessage` after the inbound data transform) of
`gossipsub/types.rs`. -/
structure Message where
  source : Option PeerId
  data : List Nat
  sequence_number : Option Nat
  topic : TopicHash
deriving DecidableEq

/-- `CachedMessage` of `gossipsub/mcache.rs`. -/
structure CachedMessage where
  source : Option PeerId
  data : List Nat
  sequence_number : Option Nat
  topic : TopicHash
  signature : Option (List Nat)
  key : Option (List Nat)
  validated : Bool
deriving DecidableEq

/-- `From<CachedMessage> for RawMessage` of `gossipsub/types.rs`. -/
def CachedMessage.toRaw (m : CachedMessage) : RawMessage :=
  { source := m.source, data := m.data, sequence_number := m.sequence_number,
    topic := m.topic, signature := m.signature, key := m.key }

/-! ## Message cache (`gossipsub/mcache.rs`)

`msgs` maps a message id to the cached message and the set of originating
peers; `iwant_counts` counts, per message and peer, how many times that peer
asked for the message; `history` is the heartbeat-indexed ring. -/

structure MCache where
  msgs : List (MessageId × CachedMessage × List PeerId)
  iwant_counts : List (MessageId × List (PeerId × Nat))
  history : List (List (MessageId × TopicHash))
  gossip : Nat
deriving DecidableEq

/-- Lookup in the `msgs` map. -/
def MCache.lookupMsg (mc : MCache) (mid : MessageId) : Option (CachedMessage × List PeerId) :=
  alLookup mid mc.msgs

/-- Replace the `msgs` entry for `mid`. -/
def MCache.setEntry (mc : MCache) (mid : MessageId) (msg : CachedMessage)
    (origins : List PeerId) : MCache :=
  { mc with msgs := alInsert mid (msg, origins) mc.msgs }

/-- `MessageCache::put`: insert a message unless already present; new entries
are appended to the current history slot. Returns `true` if inserted. -/
def MCache.put (mc : MCache) (mid : MessageId) (msg : CachedMessage) : MCache × Bool :=
  match mc.lookupMsg mid with
  | some _ => (mc, false)
  | none =>
      ({ mc with
          msgs := mc.msgs ++ [(mid, msg, [])]
          history :=
            match mc.history with
            | [] => []
            | h0 :: rest => (h0 ++ [(mid, msg.topic)]) :: rest },
        true)

/-- `MessageCache::observe_duplicate`: record a peer that sent a duplicate of
a message still pending validation. -/
def MCache.observe_duplicate (mc : MCache) (mid : MessageId) (source : PeerId) : MCache :=
  match mc.lookupMsg mid with
  | none => mc
  | some (msg, origins) =>
      if msg.validated then mc
      else mc.setEntry mid msg (setInsert source origins)

/-- `MessageCache::get_with_iwant_counts`: return the message and the bumped
per-peer IWANT count, but only for validated messages. -/
def MCache.get_with_iwant_counts (mc : MCache) (mid : MessageId) (peer : PeerId) :
    Option (CachedMessage × Nat) × MCache :=
  match mc.lookupMsg mid with
  | none => (none, mc)
  | some (msg, _) =>
      if msg.validated = false then (none, mc)
      else
        let peerCounts := (alLookup mid mc.iwant_counts).getD []
        let count := (alLookup peer peerCounts).getD 0 + 1
        (some (msg, count),
          { mc with iwant_counts := alInsert mid (alInsert peer count peerCounts) mc.iwant_counts })

/-- `MessageCache::validate`: mark a message validated and harvest (take) the
originating-peer set. -/
def MCache.validate (mc : MCache) (mid : MessageId) :
    Option (CachedMessage × List PeerId) × MCache :=
  match mc.lookupMsg mid with
  | none => (none, mc)
  | some (msg, origins) =>
      let msg' := { msg with validated := true }
      (some (msg', origins), mc.setEntry mid msg' [])

/-- `MessageCache::remove`: drop a message from `msgs` and `iwant_counts`
(the history entry is left behind, as in the source). -/
def MCache.remove (mc : MCache) (mid : MessageId) :
    Option (CachedMessage × List PeerId) × MCache :=
  let mc' := { mc with
    iwant_counts := mc.iwant_counts.filter (fun e => decide (e.1 ≠ mid)) }
  match mc.lookupMsg mid with
  | none => (none, mc')
  | some entry =>
      (some entry, { mc' with msgs := mc'.msgs.filter (fun e => decide (e.1 ≠ mid)) })

/-! ## Signers and sequence numbers (`gossipsub/signing/signer.rs`, `seq_no.rs`) -/

/-- The four `MessageSigner` implementations. The keyed signer's cryptographic
signature is carried as opaque bytes (`sig`), and its inline-key decision as
the precomputed `key` field, since the claims never inspect their contents. -/
inductive MessageSigner : Type
  | noop
  | randomAuthor (fresh : PeerId)
  | authorOnly (author : PeerId)
  | keyed (author : PeerId) (sig : List Nat) (key : Option (List Nat))
deriving DecidableEq

/-- `MessageSigner::author`: `NoopSigner` and `RandomAuthorSigner` return
`None`; `AuthorOnlySigner` and `Libp2pSigner` return the configured peer id. -/
def MessageSigner.author : MessageSigner → Option PeerId
  | .noop => none
  | .randomAuthor _ => none
  | .authorOnly a => some a
  | .keyed a _ _ => some a

/-- `MessageSigner::sign` applied to a freshly built message. -/
def MessageSigner.signMsg : MessageSigner → RawMessage → RawMessage
  | .noop, m => m
  | .randomAuthor fresh, m => { m with source := some fresh }
  | .authorOnly a, m => { m with source := some a }
  | .keyed a sig key, m => { m with source := some a, signature := some sig, key := key }

/-- `MessageSeqNumberGenerator` (`seq_no.rs`): the linear generator increments
its counter; the random generator is modelled with its next drawn value. -/
inductive SeqNoGenerator : Type
  | linear (current : Nat)
  | randomDraw (value : Nat)
deriving DecidableEq

/-- One `next()` call. -/
def SeqNoGenerator.next : SeqNoGenerator → Nat × SeqNoGenerator
  | .linear n => (n + 1, .linear (n + 1))
  | .randomDraw v => (v, .randomDraw v)

/-! ## Peer-score effects

The claims only observe which scoring calls the router makes, so the
`PeerScoreService` (`gossipsub/peer_score/service.rs`) is modelled as an
event log. -/

/-- `RejectReason` of the peer-score module. -/
inductive RejectReason : Type
  | blackListedPeer
  | blackListedSource
  | selfOrigin
  | validationFailed
  | validationIgnored
  | transformFailed
deriving DecidableEq

/-- Calls into the `PeerScoreService` made by the router. -/
inductive ScoreEvent : Type
  | rejectMessage (peer : PeerId) (mid : MessageId) (topic : TopicHash) (reason : RejectReason)
  | gossipPromisesRejectMessage (mid : MessageId) (reason : RejectReason)
  | rejectInvalidMessage (peer : PeerId) (topic : TopicHash)
  | duplicatedMessage (peer : PeerId) (mid : MessageId) (topic : TopicHash)
  | validateMessage (peer : PeerId) (mid : MessageId) (topic : TopicHash)
  | promisesMessageDelivered (mid : MessageId)
  | deliverMessage (peer : PeerId) (mid : MessageId) (topic : TopicHash)
  | addPenalty (peer : PeerId) (count : Nat)
  | graftEvent (peer : PeerId) (topic : TopicHash)
  | pruneEvent (peer : PeerId) (topic : TopicHash)
deriving DecidableEq

/-! ## Configuration and router state

Modelled from the spec: `gossipsub/config.rs` is not under `src/` (only its
getters are called from `behaviour.rs`), so `Config` collects the recognized
options listed in spec section 6 as plain fields; the configurable functions
(`message_id_fn`, `fast_message_id_fn`, the data transform, the random peer
sampler and the protobuf encoded length) are function fields. Score
thresholds (`PeerScoreThresholds`, also not under `src/`) are inlined. -/

structure Config : Type where
  allow_self_origin : Bool
  validate_messages : Bool
  flood_publish : Bool
  do_px : Bool
  max_transmit_size : Nat
  max_ihave_messages : Nat
  max_ihave_length : Nat
  gossip_retransimission : Nat
  mesh_n : Nat
  mesh_n_low : Nat
  mesh_n_high : Nat
  mesh_outbound_min : Nat
  retain_scores : Nat
  prune_peers : Nat
  prune_backoff : Nat
  graft_flood_threshold : Nat
  gossip_threshold : Int
  publish_threshold : Int
  message_id : Message → MessageId
  fast_message_id : Option (RawMessage → FastMessageId)
  inbound_transform : RawMessage → Option Message
  outbound_transform : TopicHash → List Nat → Option (List Nat)
  rpc_encoded_len : RawMessage → Nat
  random_peers : TopicHash → Nat → List PeerId

/-- The fields of `Behaviour` (`gossipsub/behaviour.rs`) that the claims
touch. `scores` is the peer-score view (unknown peers score 0), the
`outbound_peers` and `floodsub_peers` lists stand for the connection
manager's `is_outbound` and `floodsub_peers` views, and `now` is the
monotonic-clock reading of the current event. -/
structure RouterState : Type where
  mesh : List (TopicHash × List PeerId)
  topic_peers : List (TopicHash × List PeerId)
  peer_topics : List (PeerId × List TopicHash)
  fanout : List (TopicHash × List PeerId)
  fanout_last_pub : List (TopicHash × Instant)
  explicit_peers : List PeerId
  blacklisted_peers : List PeerId
  duplicate_cache : List MessageId
  published_message_ids : List MessageId
  fast_message_id_cache : List (FastMessageId × MessageId)
  mcache : MCache
  backoffs : List ((TopicHash × PeerId) × Instant)
  count_received_ihave : List (PeerId × Nat)
  count_sent_iwant : List (PeerId × Nat)
  pending_iwant_msgs : List MessageId
  gossip_promises : List MessageId
  message_seqno_generator : Option SeqNoGenerator
  message_signer : MessageSigner
  scores : List (PeerId × Int)
  outbound_peers : List PeerId
  floodsub_peers : List PeerId
  now : Instant
deriving DecidableEq

/-- The peer-score view: cached score of a peer, `0` when unknown. -/
def RouterState.score (st : RouterState) (p : PeerId) : Int :=
  (alLookup p st.scores).getD 0

/-- `score_below_threshold` of the peer-score service. -/
def RouterState.score_below (st : RouterState) (p : PeerId) (threshold : Int) : Bool :=
  st.score p < threshold

/-- `BackoffStorage::get_backoff_time`. Modelled from the spec:
`gossipsub/backoff.rs` is not under `src/`; the backoff store is the
per-(topic, peer) earliest-retry instant of spec section 3. -/
def RouterState.get_backoff_time (st : RouterState) (t : TopicHash) (p : PeerId) :
    Option Instant :=
  alLookup (t, p) st.backoffs

/-! ## Message admission (`gossipsub/behaviour.rs`) -/

/-- `Behaviour::handle_invalid_message`: if a fast message id resolves in the
fast-id cache, charge the known message id with the concrete reject reason
(and reject its gossip promises); otherwise charge an anonymous invalid
delivery. -/
def handle_invalid_message (cfg : Config) (st : RouterState) (propagation_source : PeerId)
    (raw_message : RawMessage) (reject_reason : RejectReason) : List ScoreEvent :=
  match (cfg.fast_message_id.map (fun f => f raw_message)).bind
      (fun fid => alLookup fid st.fast_message_id_cache) with
  | some msg_id =>
      [.rejectMessage propagation_source msg_id raw_message.topic reject_reason,
       .gossipPromisesRejectMessage msg_id reject_reason]
  | none => [.rejectInvalidMessage propagation_source raw_message.topic]

/-- The self-origin test of `Behaviour::message_is_valid`: with an authoring
signer, a message whose source is our own id relayed by someone else; with an
author-less signer, a message whose id is in `published_message_ids`. -/
def self_published_check (cfg : Config) (st : RouterState) (msg_id : MessageId)
    (raw_message : RawMessage) (propagation_source : PeerId) : Bool :=
  cfg.allow_self_origin = false &&
    (match st.message_signer.author with
     | some own_id =>
         decide (own_id ≠ propagation_source) && decide (raw_message.source = some own_id)
     | none => decide (msg_id ∈ st.published_message_ids))

/-- `Behaviour::message_is_valid`: blacklist checks on the relaying peer and
the claimed source, then the self-origin rule. Returns whether the message
may proceed, together with the scoring calls made. -/
def message_is_valid (cfg : Config) (st : RouterState) (msg_id : MessageId)
    (raw_message : RawMessage) (propagation_source : PeerId) : Bool × List ScoreEvent :=
  if propagation_source ∈ st.blacklisted_peers then
    (false,
      [.rejectMessage propagation_source msg_id raw_message.topic .blackListedPeer,
       .gossipPromisesRejectMessage msg_id .blackListedPeer])
  else if (match raw_message.source with
           | some source => decide (source ∈ st.blacklisted_peers)
           | none => false) then
    (false, handle_invalid_message cfg st propagation_source raw_message .blackListedSource)
  else if self_published_check cfg st msg_id raw_message propagation_source then
    (false, handle_invalid_message cfg st propagation_source raw_message .selfOrigin)
  else
    (true, [])

/-- The recipient set of `Behaviour::forward_msg`: subscribed explicit peers
and the mesh peers of the topic, excluding the propagation source, the
originating peers and the message source. -/
def forward_recipients (st : RouterState) (message : RawMessage)
    (propagation_source : Option PeerId) (originating_peers : List PeerId) : List PeerId :=
  let explicitRecips := st.explicit_peers.filter (fun p =>
    match alLookup p st.peer_topics with
    | some topics =>
        decide (some p ≠ propagation_source) && decide (p ∉ originating_peers) &&
          decide (some p ≠ message.source) && decide (message.topic ∈ topics)
    | none => false)
  let meshRecips := ((alLookup message.topic st.mesh).getD []).filter (fun p =>
    decide (some p ≠ propagation_source) && decide (p ∉ originating_peers) &&
      decide (some p ≠ message.source))
  (explicitRecips ++ meshRecips).dedup

/-- `Behaviour::forward_msg`: deliver-message scoring for the propagation
source, then sending to the recipient set; returns the recipients, whether at
least one peer was messaged, and the scoring calls. -/
def forward_msg (st : RouterState) (msg_id : MessageId) (message : RawMessage)
    (propagation_source : Option PeerId) (originating_peers : List PeerId) :
    List PeerId × Bool × List ScoreEvent :=
  let deliverEvents : List ScoreEvent :=
    match propagation_source with
    | some peer => [.deliverMessage peer msg_id message.topic]
    | none => []
  let recips := forward_recipients st message propagation_source originating_peers
  (recips, decide (recips ≠ []), deliverEvents)

/-- Result of `Behaviour::handle_received_message`: the updated state, the
`Event::Message` notifications raised, the peers the message was forwarded
to, and the scoring calls. -/
structure ReceiveResult : Type where
  state : RouterState
  messageEvents : List (PeerId × MessageId × Message)
  forwarded : List PeerId
  scoreEvents : List ScoreEvent
deriving DecidableEq

/-- `Behaviour::handle_received_message`: fast-id duplicate short-circuit,
inbound transform, message-id computation, validity checks, duplicate-cache
and memcache admission, application event, and (when validation is off)
immediate forwarding. -/
def handle_received_message (cfg : Config) (st : RouterState) (raw_message : RawMessage)
    (propagation_source : PeerId) : ReceiveResult :=
  let fast_id := cfg.fast_message_id.map (fun f => f raw_message)
  match fast_id.bind (fun fid => alLookup fid st.fast_message_id_cache) with
  | some msg_id =>
      let (valid, ev) := message_is_valid cfg st msg_id raw_message propagation_source
      if valid then
        { state := { st with mcache := st.mcache.observe_duplicate msg_id propagation_source }
          messageEvents := []
          forwarded := []
          scoreEvents := ev ++ [.duplicatedMessage propagation_source msg_id raw_message.topic] }
      else
        { state := st, messageEvents := [], forwarded := [], scoreEvents := ev }
  | none =>
      match cfg.inbound_transform raw_message with
      | none =>
          { state := st, messageEvents := [], forwarded := []
            scoreEvents :=
              handle_invalid_message cfg st propagation_source raw_message .transformFailed }
      | some message =>
          let msg_id := cfg.message_id message
          let (valid, ev) := message_is_valid cfg st msg_id raw_message propagation_source
          if valid = false then
            { state := st, messageEvents := [], forwarded := [], scoreEvents := ev }
          else
            let st1 := { st with
              fast_message_id_cache :=
                match fast_id with
                | some fid =>
                    match alLookup fid st.fast_message_id_cache with
                    | some _ => st.fast_message_id_cache
                    | none => alInsert fid msg_id st.fast_message_id_cache
                | none => st.fast_message_id_cache }
            if msg_id ∈ st1.duplicate_cache then
              { state := { st1 with mcache := st1.mcache.observe_duplicate msg_id propagation_source }
                messageEvents := []
                forwarded := []
                scoreEvents := ev ++ [.duplicatedMessage propagation_source msg_id message.topic] }
            else
              let st2 := { st1 with duplicate_cache := st1.duplicate_cache ++ [msg_id] }
              let ev2 := ev ++
                [.validateMessage propagation_source msg_id message.topic,
                 .promisesMessageDelivered msg_id]
              let cached : CachedMessage :=
                { source := raw_message.source, data := raw_message.data
                  sequence_number := raw_message.sequence_number, topic := raw_message.topic
                  signature := raw_message.signature, key := raw_message.key
                  validated := cfg.validate_messages = false }
              let st3 := { st2 with mcache := (st2.mcache.put msg_id cached).1 }
              if (alLookup message.topic st3.mesh).isSome then
                if cfg.validate_messages = false then
                  let (recips, _, fev) :=
                    forward_msg st3 msg_id raw_message (some propagation_source) []
                  { state := st3
                    messageEvents := [(propagation_source, msg_id, message)]
                    forwarded := recips
                    scoreEvents := ev2 ++ fev }
                else
                  { state := st3
                    messageEvents := [(propagation_source, msg_id, message)]
                    forwarded := []
                    scoreEvents := ev2 }
              else
                { state := st3, messageEvents := [], forwarded := [], scoreEvents := ev2 }

/-- The event log charges a peer for an invalid delivery: either a keyed
rejection of a known message id, or an anonymous invalid-message rejection. -/
def charges_peer (evs : List ScoreEvent) (p : PeerId) : Prop :=
  (∃ mid t r, ScoreEvent.rejectMessage p mid t r ∈ evs) ∨
    (∃ t, ScoreEvent.rejectInvalidMessage p t ∈ evs)

theorem handle_invalid_message_charges (cfg : Config) (st : RouterState)
    (propagation_source : PeerId) (raw_message : RawMessage) (reason : RejectReason) :
    charges_peer (handle_invalid_message cfg st propagation_source raw_message reason)
      propagation_source := by
  unfold handle_invalid_message charges_peer
  cases h : (cfg.fast_message_id.map (fun f => f raw_message)).bind
      (fun fid => alLookup fid st.fast_message_id_cache) with
  | none => exact Or.inr ⟨raw_message.topic, by simp⟩
  | some mid => exact Or.inl ⟨mid, raw_message.topic, reason, by simp⟩

theorem message_is_valid_self_origin (cfg : Config) (st : RouterState) (msg_id : MessageId)
    (raw_message : RawMessage) (propagation_source own_id : PeerId)
    (haso : cfg.allow_self_origin = false)
    (hauthor : st.message_signer.author = some own_id)
    (hsource : raw_message.source = some own_id)
    (hps : own_id ≠ propagation_source)
    (hblack1 : propagation_source ∉ st.blacklisted_peers)
    (hblack2 : own_id ∉ st.blacklisted_peers) :
    message_is_valid cfg st msg_id raw_message propagation_source =
      (false, handle_invalid_message cfg st propagation_source raw_message .selfOrigin) := by
  unfold message_is_valid self_published_check
  rw [if_neg hblack1, hsource, hauthor, haso]
  simp [hblack2, hps]

/-- Claim C2 (amended): with `allow_self_origin` disabled and a signer that
provides an author, every received message that passes the inbound transform,
whose source equals our own peer id, relayed by a non-blacklisted peer other
than ourselves while our id itself is not blacklisted, is dropped: the state
(duplicate cache, memcache, fast-id cache) is unchanged, no `Message` event is
raised, nothing is forwarded, and the relaying peer is charged through
`handle_invalid_message` with the `SelfOrigin` rejection. -/
theorem claim_C2 (cfg : Config) (st : RouterState) (raw_message : RawMessage)
    (propagation_source own_id : PeerId)
    (haso : cfg.allow_self_origin = false)
    (hauthor : st.message_signer.author = some own_id)
    (hsource : raw_message.source = some own_id)
    (hps : own_id ≠ propagation_source)
    (hblack1 : propagation_source ∉ st.blacklisted_peers)
    (hblack2 : own_id ∉ st.blacklisted_peers)
    (htrans : (cfg.inbound_transform raw_message).isSome = true) :
    (handle_received_message cfg st raw_message propagation_source).state = st
    ∧ (handle_received_message cfg st raw_message propagation_source).messageEvents = []
    ∧ (handle_received_message cfg st raw_message propagation_source).forwarded = []
    ∧ (handle_received_message cfg st raw_message propagation_source).scoreEvents =
        handle_invalid_message cfg st propagation_source raw_message .selfOrigin
    ∧ charges_peer
        (handle_received_message cfg st raw_message propagation_source).scoreEvents
        propagation_source := by
  have hvalid : ∀ msg_id, message_is_valid cfg st msg_id raw_message propagation_source =
      (false, handle_invalid_message cfg st propagation_source raw_message .selfOrigin) :=
    fun msg_id => message_is_valid_self_origin cfg st msg_id raw_message
      propagation_source own_id haso hauthor hsource hps hblack1 hblack2
  have key : handle_received_message cfg st raw_message propagation_source =
      { state := st, messageEvents := [], forwarded := []
        scoreEvents := handle_invalid_message cfg st propagation_source raw_message .selfOrigin } := by
    unfold handle_received_message
    cases htr : cfg.inbound_transform raw_message with
    | none => rw [htr] at htrans; simp at htrans
    | some message =>
        simp only [htr, hvalid]
        split <;> simp
  rw [key]
  exact ⟨rfl, rfl, rfl, rfl,
    handle_invalid_message_charges cfg st propagation_source raw_message .selfOrigin⟩

/-- The identity inbound transform (the default `IdentityTransform`). -/
def identityTransform (r : RawMessage) : Option Message :=
  some { source := r.source, data := r.data,
         sequence_number := r.sequence_number, topic := r.topic }

/-- An empty message cache with one history slot. -/
def emptyMCache : MCache := { msgs := [], iwant_counts := [], history := [[]], gossip := 1 }

/-- A benign baseline router state used by concrete instances. -/
def baseState : RouterState :=
  { mesh := [], topic_peers := [], peer_topics := [], fanout := [], fanout_last_pub := []
    explicit_peers := [], blacklisted_peers := [], duplicate_cache := []
    published_message_ids := [], fast_message_id_cache := [], mcache := emptyMCache
    backoffs := [], count_received_ihave := [], count_sent_iwant := []
    pending_iwant_msgs := [], gossip_promises := [], message_seqno_generator := none
    message_signer := .noop, scores := [], outbound_peers := [], floodsub_peers := []
    now := 0 }

/-- A baseline configuration with the identity transform and a constant
message-id function. -/
def baseConfig : Config :=
  { allow_self_origin := false, validate_messages := false, flood_publish := false
    do_px := false, max_transmit_size := 65536, max_ihave_messages := 10
    max_ihave_length := 5000, gossip_retransimission := 3, mesh_n := 6, mesh_n_low := 5
    mesh_n_high := 12, mesh_outbound_min := 2, retain_scores := 4, prune_peers := 0
    prune_backoff := 60, graft_flood_threshold := 10, gossip_threshold := -10
    publish_threshold := -50, message_id := fun m => m.data.headD 0
    fast_message_id := none, inbound_transform := identityTransform
    outbound_transform := fun _ d => some d, rpc_encoded_len := fun r => r.data.length + 32
    random_peers := fun _ _ => [] }

/-- Concrete received message for the C2 instances: source is peer 5. -/
def rawC2 : RawMessage :=
  { source := some 5, data := [100], sequence_number := some 1, topic := 1
    signature := none, key := none }

/-- State for the C2 witness: we are peer 5 (author-only signer). -/
def stC2w : RouterState :=
  { baseState with message_signer := .authorOnly 5, mesh := [(1, [3])], topic_peers := [(1, [3, 9])] }

theorem claim_C2_witness :
    (baseConfig.allow_self_origin = false
      ∧ stC2w.message_signer.author = some 5
      ∧ rawC2.source = some 5
      ∧ (5 : PeerId) ≠ 9
      ∧ (9 : PeerId) ∉ stC2w.blacklisted_peers
      ∧ (5 : PeerId) ∉ stC2w.blacklisted_peers
      ∧ (baseConfig.inbound_transform rawC2).isSome = true)
    ∧ ((handle_received_message baseConfig stC2w rawC2 9).state = stC2w
      ∧ (handle_received_message baseConfig stC2w rawC2 9).messageEvents = []
      ∧ (handle_received_message baseConfig stC2w rawC2 9).forwarded = []
      ∧ (handle_received_message baseConfig stC2w rawC2 9).scoreEvents =
          handle_invalid_message baseConfig stC2w 9 rawC2 .selfOrigin
      ∧ charges_peer (handle_received_message baseConfig stC2w rawC2 9).scoreEvents 9) :=
  ⟨⟨rfl, rfl, rfl, by decide, by decide, by decide, rfl⟩,
    claim_C2 baseConfig stC2w rawC2 9 5 rfl rfl rfl (by decide) (by decide) (by decide) rfl⟩

/-- State for the C2 counterexample: same situation, but the signer is the
author-less `NoopSigner` (anonymous authenticity); our node is peer 5. -/
def stC2x : RouterState :=
  { baseState with message_signer := .noop, mesh := [(1, [3])], topic_peers := [(1, [3, 9])] }

theorem claim_C2_counterexample :
    rawC2.source = some 5
    ∧ (∀ mid : MessageId, mid ∉ stC2x.published_message_ids)
    ∧ baseConfig.allow_self_origin = false
    ∧ stC2x.message_signer.author = none
    ∧ (handle_received_message baseConfig stC2x rawC2 9).messageEvents ≠ []
    ∧ (handle_received_message baseConfig stC2x rawC2 9).state.duplicate_cache = [100]
    ∧ (handle_received_message baseConfig stC2x rawC2 9).forwarded = [3]
    ∧ (∀ ev ∈ (handle_received_message baseConfig stC2x rawC2 9).scoreEvents,
        ∀ mid t, ev ≠ ScoreEvent.rejectMessage 9 mid t .selfOrigin) := by
  refine ⟨rfl, ?_, rfl, rfl, by decide, by decide, by decide, ?_⟩
  · intro mid h
    simp [stC2x, baseState] at h
  · intro ev hev mid t
    have hscore : (handle_received_message baseConfig stC2x rawC2 9).scoreEvents =
        [.validateMessage 9 100 1, .promisesMessageDelivered 100, .deliverMessage 9 100 1] := by
      decide
    rw [hscore] at hev
    simp only [List.mem_cons, List.not_mem_nil, or_false] at hev
    rcases hev with h | h | h <;> subst h <;> simp

/-! ## Publishing (`Behaviour::publish`) -/

/-- `PublishError` of `gossipsub/error.rs` (signing errors cannot arise in the
model, where the signer is total). -/
inductive PublishError : Type
  | duplicate
  | insufficientPeers
  | messageTooLarge
  | transformError
  | signError
deriving DecidableEq

deriving instance DecidableEq for Except

/-- The first half of `Behaviour::publish`: outbound transform, sequence
number, signing, and the message id computed on the untransformed data. -/
structure BuiltMessage : Type where
  raw : RawMessage
  msg_id : MessageId
  seq_state : Option SeqNoGenerator
deriving DecidableEq

/-- Build the message to publish: apply the outbound transform, draw a
sequence number, sign, and compute the message id over the untransformed
payload. -/
def publish_build (cfg : Config) (st : RouterState) (topic : TopicHash) (data : List Nat) :
    Option BuiltMessage :=
  match cfg.outbound_transform topic data with
  | none => none
  | some transformed_data =>
      let seqPair : Option Nat × Option SeqNoGenerator :=
        match st.message_seqno_generator with
        | some gen => ((gen.next).1, some (gen.next).2)
        | none => (none, none)
      let message0 : RawMessage :=
        { source := none, data := transformed_data, sequence_number := seqPair.1
          topic := topic, signature := none, key := none }
      let message := st.message_signer.signMsg message0
      let msg_id := cfg.message_id
        { source := message.source, data := data, sequence_number := seqPair.1, topic := topic }
      some { raw := message, msg_id := msg_id, seq_state := seqPair.2 }

/-- The recipient-selection block of `Behaviour::publish` (everything guarded
by `topic_peers.get`): explicit peers, floodsub peers above the publish
threshold, and the fanout (created from the random sampler when absent) when
we are not subscribed; under flood-publish, all topic peers above the publish
threshold plus explicit peers. Returns the recipients and the state with the
fanout and fanout-last-publication updates applied. -/
def publish_recipients (cfg : Config) (st : RouterState) (topic : TopicHash) :
    List PeerId × RouterState :=
  match alLookup topic st.topic_peers with
  | none => ([], st)
  | some set =>
      if cfg.flood_publish then
        (set.filter (fun p =>
          decide (p ∈ st.explicit_peers) || ! st.score_below p cfg.publish_threshold), st)
      else
        let explicitRecips := st.explicit_peers.filter (fun p => decide (p ∈ set))
        let floodsubRecips := st.floodsub_peers.filter
          (fun p => ! st.score_below p cfg.publish_threshold)
        if (alLookup topic st.mesh).isSome then
          ((explicitRecips ++ floodsubRecips).dedup, st)
        else
          match alLookup topic st.fanout with
          | some fanoutPeers =>
              ((explicitRecips ++ floodsubRecips ++ fanoutPeers).dedup,
                { st with fanout_last_pub := alInsert topic st.now st.fanout_last_pub })
          | none =>
              let new_peers := cfg.random_peers topic cfg.mesh_n
              ((explicitRecips ++ floodsubRecips ++ new_peers).dedup,
                { st with fanout := alInsert topic new_peers st.fanout
                          fanout_last_pub := alInsert topic st.now st.fanout_last_pub })

/-- The cached form of a freshly published message (`validated` is `true`:
all published messages are valid). -/
def builtCached (built : BuiltMessage) : CachedMessage :=
  { source := built.raw.source, data := built.raw.data
    sequence_number := built.raw.sequence_number, topic := built.raw.topic
    signature := built.raw.signature, key := built.raw.key, validated := true }

/-- Duplicate-cache insertion step of `Behaviour::publish` (applied to the
state after the recipient selection). -/
def publish_accept_dup (cfg : Config) (st0 : RouterState) (topic : TopicHash)
    (built : BuiltMessage) : RouterState :=
  { (publish_recipients cfg st0 topic).2 with
      duplicate_cache :=
        setInsert built.msg_id (publish_recipients cfg st0 topic).2.duplicate_cache }

/-- Memcache insertion step of `Behaviour::publish`. -/
def publish_accept_cache (cfg : Config) (st0 : RouterState) (topic : TopicHash)
    (built : BuiltMessage) : RouterState :=
  { publish_accept_dup cfg st0 topic built with
      mcache :=
        ((publish_accept_dup cfg st0 topic built).mcache.put built.msg_id (builtCached built)).1 }

/-- Published-message-ids insertion step of `Behaviour::publish`: only for
author-less signers with `allow_self_origin` disabled. -/
def publish_accept (cfg : Config) (st0 : RouterState) (topic : TopicHash)
    (built : BuiltMessage) : RouterState :=
  if st0.message_signer.author = none ∧ cfg.allow_self_origin = false then
    { publish_accept_cache cfg st0 topic built with
        published_message_ids :=
          setInsert built.msg_id (publish_accept_cache cfg st0 topic built).published_message_ids }
  else publish_accept_cache cfg st0 topic built

/-- The tail of `Behaviour::publish`, after the size and duplicate checks and
the mesh forwarding: compute the recipient set, fail with `InsufficientPeers`
when it is empty and no mesh peer was messaged, and otherwise admit the
message to the caches. -/
def publish_finish (cfg : Config) (st0 : RouterState) (topic : TopicHash) (built : BuiltMessage)
    (fwdRecips : List PeerId) (mesh_peers_sent : Bool) :
    Except PublishError (MessageId × RouterState × List PeerId) :=
  if (publish_recipients cfg st0 topic).1 = [] ∧ mesh_peers_sent = false then
    .error .insufficientPeers
  else
    .ok (built.msg_id, publish_accept cfg st0 topic built,
      (fwdRecips ++ (publish_recipients cfg st0 topic).1).dedup)

/-- `Behaviour::publish`: build and sign, check the encoded size and the
duplicate cache, forward to the mesh (when not flood-publishing), then
`publish_finish`. Returns the message id, the new state and the recipients. -/
def publish (cfg : Config) (st : RouterState) (topic : TopicHash) (data : List Nat) :
    Except PublishError (MessageId × RouterState × List PeerId) :=
  match publish_build cfg st topic data with
  | none => .error .transformError
  | some built =>
      if cfg.rpc_encoded_len built.raw > cfg.max_transmit_size then .error .messageTooLarge
      else if built.msg_id ∈ st.duplicate_cache then .error .duplicate
      else if cfg.flood_publish then
        publish_finish cfg { st with message_seqno_generator := built.seq_state } topic built
          [] false
      else
        publish_finish cfg { st with message_seqno_generator := built.seq_state } topic built
          (forward_msg { st with message_seqno_generator := built.seq_state }
            built.msg_id built.raw none []).1
          (forward_msg { st with message_seqno_generator := built.seq_state }
            built.msg_id built.raw none []).2.1

theorem mem_setInsert_self {α : Type} [DecidableEq α] (x : α) (s : List α) :
    x ∈ setInsert x s := by
  unfold setInsert
  split
  · assumption
  · simp

theorem mem_setInsert_iff {α : Type} [DecidableEq α] (x y : α) (s : List α) :
    y ∈ setInsert x s ↔ y = x ∨ y ∈ s := by
  unfold setInsert
  split
  · rename_i hx
    constructor
    · exact fun h => Or.inr h
    · rintro (rfl | h) <;> assumption
  · simp [or_comm]

theorem publish_accept_dup_cache (cfg : Config) (st0 : RouterState) (topic : TopicHash)
    (built : BuiltMessage) :
    (publish_accept cfg st0 topic built).duplicate_cache
      = setInsert built.msg_id (publish_recipients cfg st0 topic).2.duplicate_cache := by
  unfold publish_accept publish_accept_cache publish_accept_dup
  split <;> rfl

theorem publish_accept_published (cfg : Config) (st0 : RouterState) (topic : TopicHash)
    (built : BuiltMessage) :
    (publish_accept cfg st0 topic built).published_message_ids
      = if st0.message_signer.author = none ∧ cfg.allow_self_origin = false then
          setInsert built.msg_id (publish_recipients cfg st0 topic).2.published_message_ids
        else (publish_recipients cfg st0 topic).2.published_message_ids := by
  unfold publish_accept publish_accept_cache publish_accept_dup
  split <;> simp_all

/-- Fanout bookkeeping does not touch the signer, the duplicate cache or the
published-message-ids cache. -/
theorem publish_recipients_preserves (cfg : Config) (st : RouterState) (topic : TopicHash) :
    (publish_recipients cfg st topic).2.message_signer = st.message_signer
    ∧ (publish_recipients cfg st topic).2.duplicate_cache = st.duplicate_cache
    ∧ (publish_recipients cfg st topic).2.published_message_ids = st.published_message_ids := by
  unfold publish_recipients
  split
  · exact ⟨rfl, rfl, rfl⟩
  · split
    · exact ⟨rfl, rfl, rfl⟩
    · split
      · exact ⟨rfl, rfl, rfl⟩
      · split <;> exact ⟨rfl, rfl, rfl⟩

/-- What a successful `publish` guarantees about the resulting state. -/
theorem publish_ok_spec (cfg : Config) (st : RouterState) (topic : TopicHash) (data : List Nat)
    (id : MessageId) (st' : RouterState) (sent : List PeerId)
    (h : publish cfg st topic data = .ok (id, st', sent)) :
    (∃ built, publish_build cfg st topic data = some built ∧ built.msg_id = id)
    ∧ id ∈ st'.duplicate_cache
    ∧ (id ∈ st'.published_message_ids ↔
        (st.message_signer.author = none ∧ cfg.allow_self_origin = false)
        ∨ id ∈ st.published_message_ids) := by
  unfold publish at h
  split at h
  · exact absurd h (by simp)
  rename_i built hb
  have finish : ∀ fwdRecips mesh_peers_sent,
      publish_finish cfg { st with message_seqno_generator := built.seq_state } topic built
        fwdRecips mesh_peers_sent = .ok (id, st', sent) →
      (∃ b, publish_build cfg st topic data = some b ∧ b.msg_id = id)
      ∧ id ∈ st'.duplicate_cache
      ∧ (id ∈ st'.published_message_ids ↔
          (st.message_signer.author = none ∧ cfg.allow_self_origin = false)
          ∨ id ∈ st.published_message_ids) := by
    intro fwdRecips mesh_peers_sent hf
    obtain ⟨hsig, hdc, hpub⟩ := publish_recipients_preserves cfg
      { st with message_seqno_generator := built.seq_state } topic
    unfold publish_finish at hf
    split at hf
    · exact absurd hf (by simp)
    · simp only [Except.ok.injEq, Prod.mk.injEq] at hf
      obtain ⟨hid, hst, hsent⟩ := hf
      subst hid
      rw [← hst]
      refine ⟨⟨built, hb, rfl⟩, ?_, ?_⟩
      · rw [publish_accept_dup_cache]
        exact mem_setInsert_self _ _
      · rw [publish_accept_published, hpub]
        split
        · rename_i hc
          simp only [mem_setInsert_iff]
          exact iff_of_true (Or.inl trivial) (Or.inl hc)
        · rename_i hc
          constructor
          · exact fun hm => Or.inr hm
          · rintro (hcond | hm)
            · exact absurd hcond hc
            · exact hm
  split at h
  · exact absurd h (by simp)
  · split at h
    · exact absurd h (by simp)
    · split at h
      · exact finish _ _ h
      · exact finish _ _ h

/-- Claim C3 (amended): after every successful `publish(topic, data)`, the
returned message id is in the `published_message_ids` cache exactly when the
configured signer omits an author AND `allow_self_origin` is false (or the id
was already cached); with an authoring signer the id is not inserted even
when `allow_self_origin` is false. -/
theorem claim_C3 (cfg : Config) (st : RouterState) (topic : TopicHash) (data : List Nat)
    (id : MessageId) (st' : RouterState) (sent : List PeerId)
    (h : publish cfg st topic data = .ok (id, st', sent)) :
    id ∈ st'.published_message_ids ↔
      (st.message_signer.author = none ∧ cfg.allow_self_origin = false)
      ∨ id ∈ st.published_message_ids :=
  (publish_ok_spec cfg st topic data id st' sent h).2.2

/-- State for the C3 witness: author-less signer, one mesh peer on topic 1. -/
def stC3w : RouterState :=
  { baseState with message_signer := .noop, mesh := [(1, [3])], topic_peers := [(1, [3])] }

/-- The state resulting from the C3 witness publish. -/
def pubStC3w : RouterState :=
  match publish baseConfig stC3w 1 [42] with
  | .ok r => r.2.1
  | _ => baseState

theorem claim_C3_witness :
    publish baseConfig stC3w 1 [42] = .ok (42, pubStC3w, [3])
    ∧ (42 ∈ pubStC3w.published_message_ids ↔
        (stC3w.message_signer.author = none ∧ baseConfig.allow_self_origin = false)
        ∨ 42 ∈ stC3w.published_message_ids) :=
  ⟨by decide, claim_C3 baseConfig stC3w 1 [42] 42 pubStC3w [3] (by decide)⟩

/-- State for the C3 counterexample: an authoring signer (`AuthorOnly`), with
`allow_self_origin` still false. -/
def stC3x : RouterState :=
  { baseState with message_signer := .authorOnly 7, mesh := [(1, [3])], topic_peers := [(1, [3])] }

theorem claim_C3_counterexample :
    baseConfig.allow_self_origin = false
    ∧ ((publish baseConfig stC3x 1 [42]).toOption.map
        (fun r => (r.1, decide (r.1 ∈ r.2.1.published_message_ids)))) = some (42, false) :=
  ⟨rfl, by decide⟩

/-- Claim C8 (amended): if `publish(topic, data)` succeeds with message id
`id` and a second `publish(topic, data)` on the resulting state computes the
same message id (as content-addressed message-id functions do) and passes the
size check, the second call returns the `Duplicate` error. -/
theorem claim_C8 (cfg : Config) (st : RouterState) (topic : TopicHash) (data : List Nat)
    (id : MessageId) (st1 : RouterState) (sent : List PeerId)
    (h1 : publish cfg st topic data = .ok (id, st1, sent))
    (h2 : ∃ b, publish_build cfg st1 topic data = some b ∧ b.msg_id = id
          ∧ cfg.rpc_encoded_len b.raw ≤ cfg.max_transmit_size) :
    publish cfg st1 topic data = .error .duplicate := by
  obtain ⟨b, hb, hid, hsize⟩ := h2
  have hdup : id ∈ st1.duplicate_cache :=
    (publish_ok_spec cfg st topic data id st1 sent h1).2.1
  have hng : ¬ (cfg.rpc_encoded_len b.raw > cfg.max_transmit_size) := by omega
  have hmem : b.msg_id ∈ st1.duplicate_cache := by rw [hid]; exact hdup
  simp [publish, hb, hng, hmem]

/-- State for the C8 witness: linearly increasing sequence numbers, but the
(content-addressed) message-id function of `baseConfig` ignores them. -/
def stC8w : RouterState :=
  { baseState with
    message_signer := .authorOnly 7
    message_seqno_generator := some (.linear 5)
    mesh := [(1, [3])]
    topic_peers := [(1, [3])] }

/-- The state resulting from the C8 witness publish. -/
def pubStC8w : RouterState :=
  match publish baseConfig stC8w 1 [42] with
  | .ok r => r.2.1
  | _ => baseState

/-- The message built by the second C8 witness publish. -/
def builtC8w : BuiltMessage :=
  (publish_build baseConfig pubStC8w 1 [42]).getD
    { raw := { source := none, data := [], sequence_number := none, topic := 0,
               signature := none, key := none },
      msg_id := 0, seq_state := none }

theorem claim_C8_witness :
    (publish baseConfig stC8w 1 [42] = .ok (42, pubStC8w, [3])
      ∧ publish_build baseConfig pubStC8w 1 [42] = some builtC8w
      ∧ builtC8w.msg_id = 42
      ∧ baseConfig.rpc_encoded_len builtC8w.raw ≤ baseConfig.max_transmit_size)
    ∧ publish baseConfig pubStC8w 1 [42] = .error .duplicate :=
  ⟨⟨by decide, by decide, by decide, by decide⟩,
    claim_C8 baseConfig stC8w 1 [42] 42 pubStC8w [3] (by decide)
      ⟨builtC8w, by decide, by decide, by decide⟩⟩

/-- Configuration for the C8 counterexample: the message id is the sequence
number, as in the default gossipsub message-id function (base58 source plus
decimal seqno). -/
def cfgC8x : Config :=
  { baseConfig with message_id := fun m => m.sequence_number.getD 0 }

/-- State for the C8 counterexample: `AuthorOnly` signer with the linear
sequence-number generator seeded at 5. -/
def stC8x : RouterState :=
  { baseState with
    message_signer := .authorOnly 7
    message_seqno_generator := some (.linear 5)
    mesh := [(1, [3])]
    topic_peers := [(1, [3])] }

theorem claim_C8_counterexample :
    ((publish cfgC8x stC8x 1 [42]).toOption.map (fun r => r.1)) = some 6
    ∧ ((publish cfgC8x stC8x 1 [42]).toOption.bind
        (fun r => (publish cfgC8x r.2.1 1 [42]).toOption.map (fun r2 => r2.1))) = some 7 :=
  ⟨by decide, by decide⟩

/-! ## Validation reporting (`Behaviour::report_message_validation_result`) -/

/-- `MessageAcceptance` of `gossipsub/types.rs`. -/
inductive MessageAcceptance : Type
  | accept
  | reject
  | ignore
deriving DecidableEq

/-- Result of `report_message_validation_result`: the updated state, whether
the message was still in the memcache, the peers the message was forwarded
to, and the scoring calls. -/
structure ReportResult : Type where
  state : RouterState
  found : Bool
  forwarded : List PeerId
  scoreEvents : List ScoreEvent
deriving DecidableEq

/-- The reject/ignore tail of `report_message_validation_result`: remove from
the memcache and charge the propagation source and every recorded duplicate
origin. -/
def report_reject (st : RouterState) (msg_id : MessageId) (propagation_source : PeerId)
    (reject_reason : RejectReason) : ReportResult :=
  match (st.mcache.remove msg_id).1 with
  | some (raw_message, originating_peers) =>
      { state := { st with mcache := (st.mcache.remove msg_id).2 }
        found := true
        forwarded := []
        scoreEvents :=
          .rejectMessage propagation_source msg_id raw_message.topic reject_reason ::
            originating_peers.map
              (fun peer => .rejectMessage peer msg_id raw_message.topic reject_reason) }
  | none =>
      { state := { st with mcache := (st.mcache.remove msg_id).2 }
        found := false, forwarded := [], scoreEvents := [] }

/-- `Behaviour::report_message_validation_result`: on `Accept`, mark the
cached message validated, harvest its originating peers and forward to the
mesh excluding the propagation source and those peers; on `Reject`/`Ignore`,
remove from the memcache and charge peer scores. -/
def report_message_validation_result (st : RouterState) (msg_id : MessageId)
    (propagation_source : PeerId) (acceptance : MessageAcceptance) : ReportResult :=
  match acceptance with
  | .accept =>
      match (st.mcache.validate msg_id).1 with
      | some (raw_message, originating_peers) =>
          { state := { st with mcache := (st.mcache.validate msg_id).2 }
            found := true
            forwarded :=
              (forward_msg { st with mcache := (st.mcache.validate msg_id).2 } msg_id
                raw_message.toRaw (some propagation_source) originating_peers).1
            scoreEvents :=
              (forward_msg { st with mcache := (st.mcache.validate msg_id).2 } msg_id
                raw_message.toRaw (some propagation_source) originating_peers).2.2 }
      | none =>
          { state := { st with mcache := (st.mcache.validate msg_id).2 }
            found := false, forwarded := [], scoreEvents := [] }
  | .reject => report_reject st msg_id propagation_source .validationFailed
  | .ignore => report_reject st msg_id propagation_source .validationIgnored

/-- The forward recipient set never contains the propagation source nor an
originating peer. -/
theorem forward_recipients_excludes (st : RouterState) (message : RawMessage) (ps : PeerId)
    (originating_peers : List PeerId) (p : PeerId)
    (hp : p ∈ forward_recipients st message (some ps) originating_peers) :
    p ≠ ps ∧ p ∉ originating_peers := by
  unfold forward_recipients at hp
  rw [List.mem_dedup, List.mem_append] at hp
  rcases hp with hp | hp
  · rw [List.mem_filter] at hp
    obtain ⟨-, hfn⟩ := hp
    cases halu : alLookup p st.peer_topics with
    | none => rw [halu] at hfn; exact absurd hfn (by simp)
    | some topics =>
        rw [halu] at hfn
        simp only [Bool.and_eq_true, decide_eq_true_eq] at hfn
        exact ⟨fun hps => hfn.1.1.1 (by rw [hps]), hfn.1.1.2⟩
  · rw [List.mem_filter] at hp
    obtain ⟨-, hfn⟩ := hp
    simp only [Bool.and_eq_true, decide_eq_true_eq] at hfn
    exact ⟨fun hps => hfn.1.1 (by rw [hps]), hfn.1.2⟩

/-- Claim C4: after `report_message_validation_result(msg_id, source,
Accept)` on a message still in the memcache, the forward set contains neither
the propagation source nor any peer in the memcache's originating-peer set
for that id. -/
theorem claim_C4 (st : RouterState) (msg_id : MessageId) (propagation_source : PeerId)
    (cmsg : CachedMessage) (origins : List PeerId)
    (h : st.mcache.lookupMsg msg_id = some (cmsg, origins)) :
    ∀ p ∈ (report_message_validation_result st msg_id propagation_source .accept).forwarded,
      p ≠ propagation_source ∧ p ∉ origins := by
  intro p hp
  unfold report_message_validation_result at hp
  unfold MCache.validate at hp
  rw [h] at hp
  simp only [] at hp
  exact forward_recipients_excludes _ _ _ _ p hp

/-- State for the C4 witness: message 7 awaiting validation in the memcache,
observed as a duplicate from peer 4; mesh of its topic 1 holds peers
3, 4 and 9. -/
def stC4w : RouterState :=
  { baseState with
    mesh := [(1, [3, 4, 9])]
    mcache :=
      { msgs := [(7, ({ source := some 2, data := [5], sequence_number := none, topic := 1
                        signature := none, key := none, validated := false }, [4]))]
        iwant_counts := [], history := [[(7, 1)]], gossip := 1 } }

theorem claim_C4_witness :
    stC4w.mcache.lookupMsg 7 =
      some ({ source := some 2, data := [5], sequence_number := none, topic := 1
              signature := none, key := none, validated := false }, [4])
    ∧ ((3 : PeerId) ∈ (report_message_validation_result stC4w 7 9 .accept).forwarded
        → (3 : PeerId) ≠ 9 ∧ (3 : PeerId) ∉ ([4] : List PeerId)) :=
  ⟨by decide,
    claim_C4 stC4w 7 9
      { source := some 2, data := [5], sequence_number := none, topic := 1
        signature := none, key := none, validated := false } [4] (by decide) 3⟩

/-! ## GRAFT handling (`Behaviour::handle_graft`) -/

/-- Result of `handle_graft`: the updated state, the topics answered with
PRUNE, whether peer exchange is still allowed in those PRUNEs, and the
scoring calls. -/
structure GraftResult : Type where
  state : RouterState
  prune_topics : List TopicHash
  do_px : Bool
  scoreEvents : List ScoreEvent
deriving DecidableEq

/-- The subscription bookkeeping at the top of `handle_graft`: a grafting
peer is necessarily subscribed, so record the (peer, topic) mapping. -/
def record_graft_subscriptions (peer_id : PeerId) (topics : List TopicHash)
    (st : RouterState) : RouterState :=
  topics.foldl
    (fun s t =>
      { s with
        peer_topics :=
          alInsert peer_id (setInsert t ((alLookup peer_id s.peer_topics).getD [])) s.peer_topics
        topic_peers :=
          alInsert t (setInsert peer_id ((alLookup t s.topic_peers).getD [])) s.topic_peers })
    st

/-- The admission tail of one GRAFT topic (after the backoff check): negative
score → PRUNE without PX; mesh at `mesh_n_high` and peer not outbound →
PRUNE; otherwise add the peer to the mesh and record the graft for scoring. -/
def handle_graft_topic_accept (cfg : Config) (peer_id : PeerId) (below_zero : Bool)
    (acc : GraftResult) (topic_hash : TopicHash) (peers : List PeerId) : GraftResult :=
  if below_zero then
    { acc with prune_topics := setInsert topic_hash acc.prune_topics, do_px := false }
  else if peers.length ≥ cfg.mesh_n_high ∧ peer_id ∉ acc.state.outbound_peers then
    { acc with prune_topics := setInsert topic_hash acc.prune_topics }
  else
    { acc with
      state :=
        { acc.state with mesh := alInsert topic_hash (peers ++ [peer_id]) acc.state.mesh }
      scoreEvents := acc.scoreEvents ++ [.graftEvent peer_id topic_hash] }

/-- One GRAFT topic: ignore unknown topics (without PX) and peers already in
the mesh; a peer grafting during an active backoff is answered with PRUNE,
charged one behavioural penalty, and one more inside the flood cutoff
`backoff_end + graft_flood_threshold − prune_backoff`. -/
def handle_graft_topic (cfg : Config) (peer_id : PeerId) (below_zero : Bool)
    (acc : GraftResult) (topic_hash : TopicHash) : GraftResult :=
  match alLookup topic_hash acc.state.mesh with
  | none => { acc with do_px := false }
  | some peers =>
      if peer_id ∈ peers then acc
      else
        match acc.state.get_backoff_time topic_hash peer_id with
        | some backoff_time =>
            if backoff_time > acc.state.now then
              { acc with
                do_px := false
                prune_topics := setInsert topic_hash acc.prune_topics
                scoreEvents := acc.scoreEvents ++ [.addPenalty peer_id 1] ++
                  (if backoff_time + cfg.graft_flood_threshold - cfg.prune_backoff
                      > acc.state.now
                   then [.addPenalty peer_id 1] else []) }
            else handle_graft_topic_accept cfg peer_id below_zero acc topic_hash peers
        | none => handle_graft_topic_accept cfg peer_id below_zero acc topic_hash peers

/-- `Behaviour::handle_graft`: record subscriptions, PRUNE all topics without
PX for explicit peers, otherwise process each topic. -/
def handle_graft (cfg : Config) (st : RouterState) (peer_id : PeerId)
    (topics : List TopicHash) : GraftResult :=
  if peer_id ∈ (record_graft_subscriptions peer_id topics st).explicit_peers then
    { state := record_graft_subscriptions peer_id topics st
      prune_topics := topics.dedup, do_px := false, scoreEvents := [] }
  else
    topics.foldl
      (handle_graft_topic cfg peer_id
        ((record_graft_subscriptions peer_id topics st).score_below peer_id 0))
      { state := record_graft_subscriptions peer_id topics st
        prune_topics := [], do_px := cfg.do_px, scoreEvents := [] }

/-- Total behavioural penalty charged to a peer in an event log. -/
def penalty_total (evs : List ScoreEvent) (p : PeerId) : Nat :=
  (evs.map (fun e =>
    match e with
    | .addPenalty q n => if q = p then n else 0
    | _ => 0)).sum

/-- `handle_graft_topic` in the active-backoff case: PRUNE, no PX, one
penalty, and a second penalty inside the flood cutoff. -/
theorem handle_graft_topic_backoff (cfg : Config) (p : PeerId) (bz : Bool)
    (acc : GraftResult) (t : TopicHash) (peers : List PeerId) (bt : Instant)
    (hmesh : alLookup t acc.state.mesh = some peers)
    (hnotin : p ∉ peers)
    (hback : alLookup (t, p) acc.state.backoffs = some bt)
    (hactive : bt > acc.state.now) :
    handle_graft_topic cfg p bz acc t =
      { acc with
        do_px := false
        prune_topics := setInsert t acc.prune_topics
        scoreEvents := acc.scoreEvents ++ [.addPenalty p 1] ++
          (if bt + cfg.graft_flood_threshold - cfg.prune_backoff > acc.state.now
           then [.addPenalty p 1] else []) } := by
  simp only [handle_graft_topic, hmesh]
  rw [if_neg hnotin]
  simp only [RouterState.get_backoff_time, hback]
  rw [if_pos hactive]

theorem record_graft_subscriptions_preserves (p : PeerId) (topics : List TopicHash)
    (st : RouterState) :
    (record_graft_subscriptions p topics st).mesh = st.mesh
    ∧ (record_graft_subscriptions p topics st).explicit_peers = st.explicit_peers
    ∧ (record_graft_subscriptions p topics st).backoffs = st.backoffs
    ∧ (record_graft_subscriptions p topics st).now = st.now
    ∧ (record_graft_subscriptions p topics st).scores = st.scores := by
  induction topics generalizing st with
  | nil => exact ⟨rfl, rfl, rfl, rfl, rfl⟩
  | cons t ts ih =>
      simp only [record_graft_subscriptions, List.foldl_cons] at ih ⊢
      exact ih _

/-- Claim C5: a GRAFT from a non-explicit peer `p` for a mesh topic `t` while
`p` has an active backoff entry for `t` (and `p` is not already in the mesh)
leaves `mesh[t]` unchanged, adds `t` to the PRUNE response, disables PX, and
charges one behavioural penalty, plus one more when the GRAFT arrives inside
the flood cutoff `backoff_end + graft_flood_threshold − prune_backoff`. -/
theorem claim_C5 (cfg : Config) (st : RouterState) (p : PeerId) (t : TopicHash)
    (peers : List PeerId) (backoff_time : Instant)
    (hexp : p ∉ st.explicit_peers)
    (hmesh : alLookup t st.mesh = some peers)
    (hnotin : p ∉ peers)
    (hback : alLookup (t, p) st.backoffs = some backoff_time)
    (hactive : backoff_time > st.now) :
    alLookup t (handle_graft cfg st p [t]).state.mesh = some peers
    ∧ t ∈ (handle_graft cfg st p [t]).prune_topics
    ∧ (handle_graft cfg st p [t]).do_px = false
    ∧ penalty_total (handle_graft cfg st p [t]).scoreEvents p =
        (if backoff_time + cfg.graft_flood_threshold - cfg.prune_backoff > st.now
         then 2 else 1) := by
  obtain ⟨pmesh, pexp, pback, pnow, -⟩ := record_graft_subscriptions_preserves p [t] st
  unfold handle_graft
  rw [if_neg (pexp ▸ hexp)]
  simp only [List.foldl_cons, List.foldl_nil]
  rw [handle_graft_topic_backoff cfg p _ _ t peers backoff_time
    (by rw [pmesh]; exact hmesh) hnotin (by rw [pback]; exact hback)
    (by rw [pnow]; exact hactive)]
  refine ⟨pmesh ▸ hmesh, by simp [mem_setInsert_iff], rfl, ?_⟩
  rw [pnow]
  split <;> simp [penalty_total]

/-- State for the C5 witness: peer 4 is backed off on topic 1 until instant
100, the clock reads 50, the mesh of topic 1 is `[3]`. -/
def stC5w : RouterState :=
  { baseState with
    mesh := [(1, [3])]
    backoffs := [((1, 4), 100)]
    now := 50 }

theorem claim_C5_witness :
    ((4 : PeerId) ∉ stC5w.explicit_peers
      ∧ alLookup 1 stC5w.mesh = some [3]
      ∧ (4 : PeerId) ∉ ([3] : List PeerId)
      ∧ alLookup ((1 : TopicHash), (4 : PeerId)) stC5w.backoffs = some 100
      ∧ (100 : Instant) > stC5w.now)
    ∧ (alLookup 1 (handle_graft baseConfig stC5w 4 [1]).state.mesh = some [3]
      ∧ (1 : TopicHash) ∈ (handle_graft baseConfig stC5w 4 [1]).prune_topics
      ∧ (handle_graft baseConfig stC5w 4 [1]).do_px = false
      ∧ penalty_total (handle_graft baseConfig stC5w 4 [1]).scoreEvents 4 =
          (if (100 : Instant) + baseConfig.graft_flood_threshold - baseConfig.prune_backoff
              > stC5w.now
           then 2 else 1)) :=
  ⟨⟨by decide, by decide, by decide, by decide, by decide⟩,
    claim_C5 baseConfig stC5w 4 1 [3] 100 (by decide) (by decide) (by decide) (by decide)
      (by decide)⟩

/-! ## Heartbeat mesh trimming (`Behaviour::on_heartbeat`, mesh-high case)

The source shuffles the mesh, sorts ascending by score, reshuffles all but
the last `retain_scores` entries (the best ones), counts the outbound peers,
and walks the list removing peers until `excess = len − mesh_n` are removed,
skipping outbound peers whenever the remaining outbound count is at or below
`mesh_outbound_min`. The walk is modelled on the (post-shuffle, post-sort)
list, returning the kept and the removed peers. -/

/-- Number of outbound peers in a list. -/
def countOutbound (isOut : PeerId → Bool) (l : List PeerId) : Nat :=
  (l.filter isOut).length

/-- The removal loop of the mesh-high case: walk the list, keep outbound
peers when the outbound count is at or below the floor, remove until
`excess` peers have been removed. Returns (kept, removed). -/
def trim_excess_split (isOut : PeerId → Bool) (outboundMin : Nat) :
    List PeerId → Nat → Nat → List PeerId × List PeerId
  | [], _, _ => ([], [])
  | p :: rest, outbound, excess =>
      if excess = 0 then (p :: rest, [])
      else if isOut p then
        if outbound ≤ outboundMin then
          ((trim_excess_split isOut outboundMin rest outbound excess).1.cons p,
            (trim_excess_split isOut outboundMin rest outbound excess).2)
        else
          ((trim_excess_split isOut outboundMin rest (outbound - 1) (excess - 1)).1,
            (trim_excess_split isOut outboundMin rest (outbound - 1) (excess - 1)).2.cons p)
      else
        ((trim_excess_split isOut outboundMin rest outbound (excess - 1)).1,
          (trim_excess_split isOut outboundMin rest outbound (excess - 1)).2.cons p)

/-- The mesh-high trimming step: when the mesh exceeds `mesh_n_high`, remove
`len − mesh_n` peers with the outbound-respecting walk. -/
def heartbeat_trim (cfg : Config) (isOut : PeerId → Bool) (shuffled : List PeerId) :
    List PeerId × List PeerId :=
  if shuffled.length > cfg.mesh_n_high then
    trim_excess_split isOut cfg.mesh_outbound_min shuffled
      (countOutbound isOut shuffled) (shuffled.length - cfg.mesh_n)
  else (shuffled, [])

theorem countOutbound_cons (isOut : PeerId → Bool) (p : PeerId) (l : List PeerId) :
    countOutbound isOut (p :: l) =
      (if isOut p then 1 else 0) + countOutbound isOut l := by
  unfold countOutbound
  rw [List.filter_cons]
  split <;> simp [Nat.add_comm]

theorem countOutbound_le_length (isOut : PeerId → Bool) (l : List PeerId) :
    countOutbound isOut l ≤ l.length :=
  List.length_filter_le _ _

/-- The kept and removed lists partition the input. -/
theorem trim_excess_split_length (isOut : PeerId → Bool) (outboundMin : Nat)
    (l : List PeerId) (outbound excess : Nat) :
    (trim_excess_split isOut outboundMin l outbound excess).1.length
      + (trim_excess_split isOut outboundMin l outbound excess).2.length = l.length := by
  induction l generalizing outbound excess with
  | nil => rfl
  | cons p rest ih =>
      unfold trim_excess_split
      split
      · simp
      · split
        · split
          · simp only [List.length_cons]
            have := ih outbound excess
            omega
          · simp only [List.length_cons]
            have := ih (outbound - 1) (excess - 1)
            omega
        · simp only [List.length_cons]
          have := ih outbound (excess - 1)
          omega

/-- How many peers the removal loop removes. -/
theorem trim_excess_split_removed_length (isOut : PeerId → Bool) (outboundMin : Nat)
    (l : List PeerId) (outbound excess : Nat)
    (hcnt : countOutbound isOut l ≤ outbound) :
    (trim_excess_split isOut outboundMin l outbound excess).2.length =
      min excess ((l.length - countOutbound isOut l)
        + min (countOutbound isOut l) (outbound - outboundMin)) := by
  induction l generalizing outbound excess with
  | nil => simp [trim_excess_split, countOutbound]
  | cons p rest ih =>
      have hle := countOutbound_le_length isOut rest
      rw [countOutbound_cons] at hcnt ⊢
      unfold trim_excess_split
      split
      · rename_i h0
        subst h0
        simp
      · rename_i h0
        split
        · rename_i hIsOut
          rw [if_pos hIsOut] at hcnt
          split
          · rename_i hmin
            rw [ih outbound excess (by omega)]
            simp only [List.length_cons]
            omega
          · rename_i hmin
            simp only [List.length_cons]
            rw [ih (outbound - 1) (excess - 1) (by omega)]
            omega
        · rename_i hIsOut
          rw [if_neg hIsOut] at hcnt
          simp only [List.length_cons]
          rw [ih outbound (excess - 1) (by omega)]
          omega

/-- The loop never removes an outbound peer once the remaining outbound
count is at the floor: at most `outbound − outboundMin` outbound peers are
removed. -/
theorem trim_excess_split_removed_outbound (isOut : PeerId → Bool) (outboundMin : Nat)
    (l : List PeerId) (outbound excess : Nat)
    (hcnt : countOutbound isOut l ≤ outbound) :
    countOutbound isOut (trim_excess_split isOut outboundMin l outbound excess).2
      ≤ outbound - outboundMin := by
  induction l generalizing outbound excess with
  | nil => simp [trim_excess_split, countOutbound]
  | cons p rest ih =>
      rw [countOutbound_cons] at hcnt
      unfold trim_excess_split
      split
      · simp [countOutbound]
      · split
        · rename_i hIsOut
          rw [if_pos hIsOut] at hcnt
          split
          · rename_i hmin
            exact ih outbound excess (by omega)
          · rename_i hmin
            rw [countOutbound_cons, if_pos hIsOut]
            have := ih (outbound - 1) (excess - 1) (by omega)
            omega
        · rename_i hIsOut
          rw [if_neg hIsOut] at hcnt
          rw [countOutbound_cons, if_neg hIsOut]
          have := ih outbound (excess - 1) (by omega)
          omega

/-- The kept and removed lists also partition the outbound count. -/
theorem trim_excess_split_outbound_partition (isOut : PeerId → Bool) (outboundMin : Nat)
    (l : List PeerId) (outbound excess : Nat) :
    countOutbound isOut (trim_excess_split isOut outboundMin l outbound excess).1
      + countOutbound isOut (trim_excess_split isOut outboundMin l outbound excess).2
      = countOutbound isOut l := by
  induction l generalizing outbound excess with
  | nil => rfl
  | cons p rest ih =>
      unfold trim_excess_split
      split
      · simp [countOutbound]
      · split
        · split
          · simp only [countOutbound_cons]
            have := ih outbound excess
            omega
          · simp only [countOutbound_cons]
            have := ih (outbound - 1) (excess - 1)
            omega
        · simp only [countOutbound_cons]
          have := ih outbound (excess - 1)
          omega

/-- With no removal budget the loop keeps everything. -/
theorem trim_excess_split_zero (isOut : PeerId → Bool) (outboundMin : Nat)
    (l : List PeerId) (outbound : Nat) :
    trim_excess_split isOut outboundMin l outbound 0 = (l, []) := by
  cases l with
  | nil => rfl
  | cons p rest => simp [trim_excess_split]

/-- Every removed peer comes from the input list. -/
theorem trim_excess_split_removed_mem (isOut : PeerId → Bool) (outboundMin : Nat)
    (l : List PeerId) (outbound excess : Nat) :
    ∀ q ∈ (trim_excess_split isOut outboundMin l outbound excess).2, q ∈ l := by
  induction l generalizing outbound excess with
  | nil => intro q hq; exact absurd hq (by simp [trim_excess_split])
  | cons p rest ih =>
      intro q hq
      unfold trim_excess_split at hq
      split at hq
      · exact absurd hq (by simp)
      · split at hq
        · split at hq
          · exact List.mem_cons_of_mem p (ih _ _ q hq)
          · rcases List.mem_cons.mp hq with rfl | hq'
            · exact List.mem_cons_self q rest
            · exact List.mem_cons_of_mem p (ih _ _ q hq')
        · rcases List.mem_cons.mp hq with rfl | hq'
          · exact List.mem_cons_self q rest
          · exact List.mem_cons_of_mem p (ih _ _ q hq')

/-- If the removal loop exhausts its budget inside a prefix, peers after the
prefix are untouched. -/
theorem trim_excess_split_append (isOut : PeerId → Bool) (outboundMin : Nat)
    (l1 l2 : List PeerId) (outbound excess : Nat)
    (h : (trim_excess_split isOut outboundMin l1 outbound excess).2.length = excess) :
    trim_excess_split isOut outboundMin (l1 ++ l2) outbound excess =
      ((trim_excess_split isOut outboundMin l1 outbound excess).1 ++ l2,
        (trim_excess_split isOut outboundMin l1 outbound excess).2) := by
  induction l1 generalizing outbound excess with
  | nil =>
      simp only [trim_excess_split, List.length_nil] at h
      subst h
      rw [List.nil_append, trim_excess_split_zero]
      rfl
  | cons p rest ih =>
      by_cases h0 : excess = 0
      · subst h0
        rw [trim_excess_split_zero, trim_excess_split_zero]
      · unfold trim_excess_split at h
        rw [if_neg h0] at h
        by_cases hIsOut : isOut p
        · rw [if_pos hIsOut] at h
          by_cases hmin : outbound ≤ outboundMin
          · rw [if_pos hmin] at h
            have h' : (trim_excess_split isOut outboundMin rest outbound excess).2.length
                = excess := h
            simp [List.cons_append, trim_excess_split, h0, hIsOut, hmin, ih _ _ h']
          · rw [if_neg hmin] at h
            have h' : (trim_excess_split isOut outboundMin rest (outbound - 1)
                (excess - 1)).2.length = excess - 1 := by
              have := congrArg id h
              simp only [id, List.length_cons] at this
              omega
            simp [List.cons_append, trim_excess_split, h0, hIsOut, hmin, ih _ _ h']
        · rw [if_neg hIsOut] at h
          have h' : (trim_excess_split isOut outboundMin rest outbound
              (excess - 1)).2.length = excess - 1 := by
            have := congrArg id h
            simp only [id, List.length_cons] at this
            omega
          simp [List.cons_append, trim_excess_split, h0, hIsOut, ih _ _ h']

/-- Claim C6 (amended): at a heartbeat, for a mesh whose size exceeds
`mesh_n_high` (with the sane configuration `mesh_outbound_min ≤ mesh_n ≤
mesh_n_high`), the trimming step ends with exactly `mesh_n` peers, never
drops the outbound count below `min(outbound, mesh_outbound_min)`, and does
not touch a protected suffix (in particular the best `retain_scores` peers,
which the source keeps at the end of the removal order) whenever the peers
before it can absorb the whole excess. -/
theorem claim_C6 (cfg : Config) (isOut : PeerId → Bool) (shuffled : List PeerId)
    (hhigh : shuffled.length > cfg.mesh_n_high)
    (hnh : cfg.mesh_n ≤ cfg.mesh_n_high)
    (hmin : cfg.mesh_outbound_min ≤ cfg.mesh_n) :
    (heartbeat_trim cfg isOut shuffled).1.length = cfg.mesh_n
    ∧ min (countOutbound isOut shuffled) cfg.mesh_outbound_min
        ≤ countOutbound isOut (heartbeat_trim cfg isOut shuffled).1
    ∧ (∀ front prot, shuffled = front ++ prot →
        (trim_excess_split isOut cfg.mesh_outbound_min front
          (countOutbound isOut shuffled) (shuffled.length - cfg.mesh_n)).2.length
          = shuffled.length - cfg.mesh_n →
        ∀ q ∈ prot, q ∉ front → q ∉ (heartbeat_trim cfg isOut shuffled).2) := by
  have hcnt := countOutbound_le_length isOut shuffled
  have hrem := trim_excess_split_removed_length isOut cfg.mesh_outbound_min shuffled
    (countOutbound isOut shuffled) (shuffled.length - cfg.mesh_n) (le_refl _)
  have hpart := trim_excess_split_length isOut cfg.mesh_outbound_min shuffled
    (countOutbound isOut shuffled) (shuffled.length - cfg.mesh_n)
  have houtpart := trim_excess_split_outbound_partition isOut cfg.mesh_outbound_min shuffled
    (countOutbound isOut shuffled) (shuffled.length - cfg.mesh_n)
  have houtrem := trim_excess_split_removed_outbound isOut cfg.mesh_outbound_min shuffled
    (countOutbound isOut shuffled) (shuffled.length - cfg.mesh_n) (le_refl _)
  have hremcnt : countOutbound isOut
      (trim_excess_split isOut cfg.mesh_outbound_min shuffled
        (countOutbound isOut shuffled) (shuffled.length - cfg.mesh_n)).2
      ≤ (trim_excess_split isOut cfg.mesh_outbound_min shuffled
        (countOutbound isOut shuffled) (shuffled.length - cfg.mesh_n)).2.length :=
    countOutbound_le_length _ _
  unfold heartbeat_trim
  rw [if_pos hhigh]
  refine ⟨by omega, by omega, ?_⟩
  intro front prot heq hlen q hq hnf
  rw [heq] at *
  rw [trim_excess_split_append isOut cfg.mesh_outbound_min front prot _ _
    (by rw [heq] at hlen; exact hlen)]
  intro hmem
  exact hnf (trim_excess_split_removed_mem _ _ _ _ _ q hmem)

/-- Configuration for the C6 witness and counterexample: `mesh_n = 6`,
`mesh_n_high = 8`, `mesh_outbound_min = 3`, `retain_scores = 6`. -/
def cfgC6 : Config :=
  { baseConfig with mesh_n := 6, mesh_n_high := 8, mesh_outbound_min := 3, retain_scores := 6 }

/-- Outbound view for the C6 instances: peers 0, 1, 2 are outbound. -/
def isOutC6 (p : PeerId) : Bool := decide (p < 3)

/-- Mesh content for the C6 instances, already sorted ascending by score:
the three outbound peers score lowest, the protected best six are
`[10, 11, 12, 13, 14, 15]`. -/
def shuffledC6 : List PeerId := [0, 1, 2, 10, 11, 12, 13, 14, 15]

theorem claim_C6_witness :
    (shuffledC6.length > cfgC6.mesh_n_high
      ∧ cfgC6.mesh_n ≤ cfgC6.mesh_n_high
      ∧ cfgC6.mesh_outbound_min ≤ cfgC6.mesh_n)
    ∧ (heartbeat_trim cfgC6 isOutC6 shuffledC6).1.length = cfgC6.mesh_n
    ∧ min (countOutbound isOutC6 shuffledC6) cfgC6.mesh_outbound_min
        ≤ countOutbound isOutC6 (heartbeat_trim cfgC6 isOutC6 shuffledC6).1 :=
  ⟨⟨by decide, by decide, by decide⟩,
    (claim_C6 cfgC6 isOutC6 shuffledC6 (by decide) (by decide) (by decide)).1,
    (claim_C6 cfgC6 isOutC6 shuffledC6 (by decide) (by decide) (by decide)).2.1⟩

theorem claim_C6_counterexample :
    cfgC6.mesh_outbound_min ≤ cfgC6.mesh_n / 2
    ∧ shuffledC6.length > cfgC6.mesh_n_high
    ∧ (heartbeat_trim cfgC6 isOutC6 shuffledC6).2 = [10, 11, 12]
    ∧ (10 : PeerId) ∈ shuffledC6.drop (shuffledC6.length - cfgC6.retain_scores) := by
  decide

/-! ## IWANT handling (`Behaviour::handle_iwant`) -/

/-- One requested id of `handle_iwant`: look the message up in the memcache
(bumping the per-peer IWANT count), and include it in the response unless the
peer asked too often. -/
def handle_iwant_step (cfg : Config) (peer_id : PeerId)
    (acc : MCache × List (MessageId × CachedMessage)) (id : MessageId) :
    MCache × List (MessageId × CachedMessage) :=
  match acc.1.get_with_iwant_counts id peer_id with
  | (some (msg, count), mc') =>
      if count > cfg.gossip_retransimission then (mc', acc.2)
      else (mc', alInsert id msg acc.2)
  | (none, mc') => (mc', acc.2)

/-- `Behaviour::handle_iwant`: score gate, then collect the cached messages
for the requested ids; the collected map is sent to the requester. -/
def handle_iwant (cfg : Config) (st : RouterState) (peer_id : PeerId)
    (iwant_msgs : List MessageId) : RouterState × List (MessageId × CachedMessage) :=
  if st.score_below peer_id cfg.gossip_threshold then (st, [])
  else
    ({ st with mcache := (iwant_msgs.foldl (handle_iwant_step cfg peer_id) (st.mcache, [])).1 },
      (iwant_msgs.foldl (handle_iwant_step cfg peer_id) (st.mcache, [])).2)

/-- The IWANT-count bump never touches the `msgs` map. -/
theorem get_with_iwant_counts_msgs (mc : MCache) (mid : MessageId) (peer : PeerId) :
    (mc.get_with_iwant_counts mid peer).2.msgs = mc.msgs := by
  unfold MCache.get_with_iwant_counts
  split
  · rfl
  · split <;> rfl

/-- A cached message that is not validated is never returned by
`get_with_iwant_counts`. -/
theorem get_with_iwant_counts_invalid (mc : MCache) (mid : MessageId) (peer : PeerId)
    (m : CachedMessage) (ors : List PeerId)
    (h : mc.lookupMsg mid = some (m, ors)) (hval : m.validated = false) :
    (mc.get_with_iwant_counts mid peer).1 = none := by
  unfold MCache.get_with_iwant_counts
  rw [h]
  simp [hval]

theorem alInsert_map_fst_mem {α β : Type} [DecidableEq α] (k : α) (v : β)
    (l : List (α × β)) (q : α) :
    q ∈ (alInsert k v l).map Prod.fst ↔ q = k ∨ q ∈ l.map Prod.fst := by
  induction l with
  | nil => simp [alInsert]
  | cons e rest ih =>
      unfold alInsert
      split
      · rename_i hk
        subst hk
        simp
      · simp only [List.map_cons, List.mem_cons, ih]
        tauto

/-- The response assembly never includes an id whose cached entry is not
validated. -/
theorem handle_iwant_fold_not_mem (cfg : Config) (peer_id : PeerId) (id : MessageId)
    (m : CachedMessage) (ors : List PeerId) (hval : m.validated = false) :
    ∀ (ids : List MessageId) (mc : MCache) (acc : List (MessageId × CachedMessage)),
      mc.lookupMsg id = some (m, ors) →
      id ∉ acc.map Prod.fst →
      id ∉ (ids.foldl (handle_iwant_step cfg peer_id) (mc, acc)).2.map Prod.fst := by
  intro ids
  induction ids with
  | nil => intro mc acc hmc hacc; exact hacc
  | cons i rest ih =>
      intro mc acc hmc hacc
      rw [List.foldl_cons]
      have hmsgs := get_with_iwant_counts_msgs mc i peer_id
      have hmc' : (mc.get_with_iwant_counts i peer_id).2.lookupMsg id = some (m, ors) := by
        unfold MCache.lookupMsg
        rw [hmsgs]
        exact hmc
      by_cases hid : i = id
      · subst hid
        have hnone := get_with_iwant_counts_invalid mc i peer_id m ors hmc hval
        unfold handle_iwant_step
        split
        · rename_i msg count mc' heq
          rw [heq] at hnone
          exact absurd hnone (by simp)
        · rename_i mc' heq
          have hmc2 : mc' = (mc.get_with_iwant_counts i peer_id).2 := by rw [heq]
          exact ih mc' acc (by rw [hmc2]; exact hmc') hacc
      · unfold handle_iwant_step
        split
        · rename_i msg count mc' heq
          have hmc2 : mc' = (mc.get_with_iwant_counts i peer_id).2 := by rw [heq]
          split
          · exact ih mc' acc (by rw [hmc2]; exact hmc') hacc
          · refine ih mc' (alInsert i msg acc) (by rw [hmc2]; exact hmc') ?_
            rw [alInsert_map_fst_mem]
            rintro (h | h)
            · exact hid h.symm
            · exact hacc h
        · rename_i mc' heq
          have hmc2 : mc' = (mc.get_with_iwant_counts i peer_id).2 := by rw [heq]
          exact ih mc' acc (by rw [hmc2]; exact hmc') hacc

/-- Claim C10: an IWANT request is only answered with validated cached
messages: a requested id whose memcache entry has `validated = false` gets
`none` from the lookup and does not appear in the response. -/
theorem claim_C10 (cfg : Config) (st : RouterState) (peer_id : PeerId)
    (iwant_msgs : List MessageId) (id : MessageId) (m : CachedMessage) (ors : List PeerId)
    (h : st.mcache.lookupMsg id = some (m, ors))
    (hval : m.validated = false) :
    (st.mcache.get_with_iwant_counts id peer_id).1 = none
    ∧ id ∉ (handle_iwant cfg st peer_id iwant_msgs).2.map Prod.fst := by
  refine ⟨get_with_iwant_counts_invalid st.mcache id peer_id m ors h hval, ?_⟩
  unfold handle_iwant
  split
  · simp
  · exact handle_iwant_fold_not_mem cfg peer_id id m ors hval iwant_msgs st.mcache [] h
      (by simp)

/-- State for the C10 witness: message 7 in the memcache awaiting validation,
message 8 validated. -/
def stC10w : RouterState :=
  { baseState with
    mcache :=
      { msgs :=
          [(7, ({ source := none, data := [1], sequence_number := none, topic := 1
                  signature := none, key := none, validated := false }, [])),
           (8, ({ source := none, data := [2], sequence_number := none, topic := 1
                  signature := none, key := none, validated := true }, []))]
        iwant_counts := [], history := [[(7, 1), (8, 1)]], gossip := 1 } }

theorem claim_C10_witness :
    (stC10w.mcache.lookupMsg 7 =
        some ({ source := none, data := [1], sequence_number := none, topic := 1
                signature := none, key := none, validated := false }, [])
      ∧ ({ source := none, data := [1], sequence_number := none, topic := 1
           signature := none, key := none,
           validated := false } : CachedMessage).validated = false)
    ∧ ((stC10w.mcache.get_with_iwant_counts 7 9).1 = none
      ∧ (7 : MessageId) ∉ (handle_iwant baseConfig stC10w 9 [7, 8]).2.map Prod.fst) :=
  ⟨⟨by decide, by decide⟩,
    claim_C10 baseConfig stC10w 9 [7, 8] 7
      { source := none, data := [1], sequence_number := none, topic := 1
        signature := none, key := none, validated := false } [] (by decide) (by decide)⟩

/-! ## IHAVE handling and per-heartbeat flood protection
(`Behaviour::handle_ihave`, `Behaviour::on_heartbeat`) -/

theorem alLookup_alInsert_self {α β : Type} [DecidableEq α] (k : α) (v : β)
    (l : List (α × β)) : alLookup k (alInsert k v l) = some v := by
  induction l with
  | nil => simp [alLookup, alInsert]
  | cons e rest ih =>
      unfold alInsert
      split
      · rename_i hk
        subst hk
        simp [alLookup]
      · rename_i hk
        unfold alLookup
        rw [if_neg hk]
        exact ih

theorem alLookup_alInsert_ne {α β : Type} [DecidableEq α] (k q : α) (v : β)
    (l : List (α × β)) (h : q ≠ k) : alLookup q (alInsert k v l) = alLookup q l := by
  induction l with
  | nil => simp [alLookup, alInsert, h]
  | cons e rest ih =>
      unfold alInsert
      split
      · rename_i hk
        subst hk
        unfold alLookup
        rw [if_neg h, if_neg h]
      · unfold alLookup
        split
        · rfl
        · exact ih

/-- The `want_message` filter of `handle_ihave`: not already seen, not
already being asked for, not already promised. -/
def want_message (st : RouterState) (id : MessageId) : Bool :=
  decide (id ∉ st.duplicate_cache) && decide (id ∉ st.pending_iwant_msgs) &&
    decide (id ∉ st.gossip_promises)

/-- The IHAVE id collection: for each advertised topic we are subscribed to,
accumulate the wanted ids, deduplicating. -/
def collect_iwant_ids (st : RouterState)
    (ihave_msgs : List (TopicHash × List MessageId)) : List MessageId :=
  ihave_msgs.foldl
    (fun acc tp =>
      if (alLookup tp.1 st.mesh).isSome then
        acc ++ ((tp.2.filter (want_message st)).filter (fun id => decide (id ∉ acc)))
      else acc) []

/-- The quota truncation of `handle_ihave`: with `iasked` ids already asked
from the peer this heartbeat and `len` new candidates, ask for at most
`max_ihave_length − iasked`. -/
def ihave_ask_count (cfg : Config) (iasked len : Nat) : Nat :=
  if iasked + len > cfg.max_ihave_length then cfg.max_ihave_length - iasked else len

/-- The IWANT emission at the end of `handle_ihave`: truncate the wanted ids
to the per-peer quota, record them as pending and promised, and bump the
per-peer asked counter. -/
def handle_ihave_ask (cfg : Config) (st1 : RouterState) (peer_id : PeerId)
    (iwant_ids : List MessageId) : RouterState × Bool × List MessageId :=
  if iwant_ids = [] then (st1, true, [])
  else
    ({ st1 with
        count_sent_iwant :=
          alInsert peer_id
            ((alLookup peer_id st1.count_sent_iwant).getD 0 +
              ihave_ask_count cfg ((alLookup peer_id st1.count_sent_iwant).getD 0)
                iwant_ids.length)
            st1.count_sent_iwant
        pending_iwant_msgs := st1.pending_iwant_msgs ++
          iwant_ids.take (ihave_ask_count cfg
            ((alLookup peer_id st1.count_sent_iwant).getD 0) iwant_ids.length)
        gossip_promises := st1.gossip_promises ++
          iwant_ids.take (ihave_ask_count cfg
            ((alLookup peer_id st1.count_sent_iwant).getD 0) iwant_ids.length) },
      true,
      iwant_ids.take (ihave_ask_count cfg
        ((alLookup peer_id st1.count_sent_iwant).getD 0) iwant_ids.length))

/-- `Behaviour::handle_ihave`: score gate, the per-heartbeat IHAVE counter
gate (`max_ihave_messages`), the per-heartbeat IWANT quota gate
(`max_ihave_length`), then the quota-truncated IWANT emission (the random
partial shuffle of the source only permutes which ids are kept). Returns the
new state, whether the IHAVE was processed past the flood gates, and the ids
asked from the peer. -/
def handle_ihave (cfg : Config) (st : RouterState) (peer_id : PeerId)
    (ihave_msgs : List (TopicHash × List MessageId)) :
    RouterState × Bool × List MessageId :=
  if st.score_below peer_id cfg.gossip_threshold then (st, false, [])
  else
    if (alLookup peer_id st.count_received_ihave).getD 0 + 1 > cfg.max_ihave_messages then
      ({ st with
          count_received_ihave :=
            alInsert peer_id ((alLookup peer_id st.count_received_ihave).getD 0 + 1)
              st.count_received_ihave },
        false, [])
    else if (match alLookup peer_id st.count_sent_iwant with
             | some iasked => decide (iasked ≥ cfg.max_ihave_length)
             | none => false) then
      ({ st with
          count_received_ihave :=
            alInsert peer_id ((alLookup peer_id st.count_received_ihave).getD 0 + 1)
              st.count_received_ihave },
        false, [])
    else
      handle_ihave_ask cfg
        { st with
          count_received_ihave :=
            alInsert peer_id ((alLookup peer_id st.count_received_ihave).getD 0 + 1)
              st.count_received_ihave }
        peer_id (collect_iwant_ids st ihave_msgs)

/-- The per-heartbeat counter reset at the top of `on_heartbeat`
(`count_sent_iwant.clear(); count_received_ihave.clear()`). -/
def heartbeat_reset_counters (st : RouterState) : RouterState :=
  { st with count_sent_iwant := [], count_received_ihave := [] }

/-- A sequence of `handle_ihave` events within one heartbeat interval,
returning the final state and, per event, the peer, whether the IHAVE was
processed, and the number of ids asked. -/
def run_ihave_events (cfg : Config) :
    RouterState → List (PeerId × List (TopicHash × List MessageId)) →
      RouterState × List (PeerId × Bool × Nat)
  | st, [] => (st, [])
  | st, (p, msgs) :: rest =>
      ((run_ihave_events cfg (handle_ihave cfg st p msgs).1 rest).1,
        (p, (handle_ihave cfg st p msgs).2.1, (handle_ihave cfg st p msgs).2.2.length)
          :: (run_ihave_events cfg (handle_ihave cfg st p msgs).1 rest).2)

/-- Number of IHAVEs from `p` acted on in a trace. -/
def acted_count (p : PeerId) (trace : List (PeerId × Bool × Nat)) : Nat :=
  (trace.map (fun e => if e.1 = p ∧ e.2.1 = true then 1 else 0)).sum

/-- Total number of ids asked from `p` in a trace. -/
def asked_total (p : PeerId) (trace : List (PeerId × Bool × Nat)) : Nat :=
  (trace.map (fun e => if e.1 = p then e.2.2 else 0)).sum

theorem acted_count_cons (p q : PeerId) (b : Bool) (n : Nat)
    (tr : List (PeerId × Bool × Nat)) :
    acted_count p ((q, b, n) :: tr) =
      (if q = p ∧ b = true then 1 else 0) + acted_count p tr := by
  simp [acted_count]

theorem asked_total_cons (p q : PeerId) (b : Bool) (n : Nat)
    (tr : List (PeerId × Bool × Nat)) :
    asked_total p ((q, b, n) :: tr) = (if q = p then n else 0) + asked_total p tr := by
  simp [asked_total]

theorem handle_ihave_ask_received (cfg : Config) (st1 : RouterState) (p : PeerId)
    (ids : List MessageId) :
    (handle_ihave_ask cfg st1 p ids).1.count_received_ihave = st1.count_received_ihave := by
  unfold handle_ihave_ask
  split <;> rfl

theorem handle_ihave_ask_acted (cfg : Config) (st1 : RouterState) (p : PeerId)
    (ids : List MessageId) : (handle_ihave_ask cfg st1 p ids).2.1 = true := by
  unfold handle_ihave_ask
  split <;> rfl

theorem handle_ihave_ask_sent (cfg : Config) (st1 : RouterState) (p : PeerId)
    (ids : List MessageId) :
    (alLookup p (handle_ihave_ask cfg st1 p ids).1.count_sent_iwant).getD 0
      = (alLookup p st1.count_sent_iwant).getD 0
        + (handle_ihave_ask cfg st1 p ids).2.2.length := by
  unfold handle_ihave_ask
  split
  · simp
  · simp only [alLookup_alInsert_self, Option.getD_some, List.length_take]
    unfold ihave_ask_count
    split <;> omega

theorem handle_ihave_ask_sent_le (cfg : Config) (st1 : RouterState) (p : PeerId)
    (ids : List MessageId)
    (h : (alLookup p st1.count_sent_iwant).getD 0 ≤ cfg.max_ihave_length) :
    (alLookup p (handle_ihave_ask cfg st1 p ids).1.count_sent_iwant).getD 0
      ≤ cfg.max_ihave_length := by
  unfold handle_ihave_ask
  split
  · exact h
  · simp only [alLookup_alInsert_self, Option.getD_some]
    unfold ihave_ask_count
    split <;> omega

theorem handle_ihave_ask_sent_other (cfg : Config) (st1 : RouterState) (p q : PeerId)
    (ids : List MessageId) (hq : q ≠ p) :
    alLookup q (handle_ihave_ask cfg st1 p ids).1.count_sent_iwant
      = alLookup q st1.count_sent_iwant := by
  unfold handle_ihave_ask
  split
  · rfl
  · simp only []
    exact alLookup_alInsert_ne p q _ _ hq

/-- Per-peer received-IHAVE counter facts of one `handle_ihave` call. -/
theorem handle_ihave_received (cfg : Config) (st : RouterState) (p : PeerId)
    (msgs : List (TopicHash × List MessageId)) :
    ((alLookup p (handle_ihave cfg st p msgs).1.count_received_ihave).getD 0
        = (alLookup p st.count_received_ihave).getD 0
      ∨ (alLookup p (handle_ihave cfg st p msgs).1.count_received_ihave).getD 0
        = (alLookup p st.count_received_ihave).getD 0 + 1)
    ∧ ((handle_ihave cfg st p msgs).2.1 = true →
        (alLookup p (handle_ihave cfg st p msgs).1.count_received_ihave).getD 0
          = (alLookup p st.count_received_ihave).getD 0 + 1
        ∧ (alLookup p (handle_ihave cfg st p msgs).1.count_received_ihave).getD 0
          ≤ cfg.max_ihave_messages) := by
  unfold handle_ihave
  split
  · exact ⟨Or.inl rfl, fun h => absurd h (by simp)⟩
  · split
    · refine ⟨Or.inr (by simp [alLookup_alInsert_self]), fun h => absurd h (by simp)⟩
    · split
      · refine ⟨Or.inr (by simp [alLookup_alInsert_self]), fun h => absurd h (by simp)⟩
      · rename_i hgate2
        constructor
        · right
          rw [handle_ihave_ask_received]
          simp [alLookup_alInsert_self]
        · intro _
          constructor
          · rw [handle_ihave_ask_received]
            simp [alLookup_alInsert_self]
          · rw [handle_ihave_ask_received]
            simp only [alLookup_alInsert_self, Option.getD_some]
            omega

/-- Per-peer asked-IWANT counter facts of one `handle_ihave` call. -/
theorem handle_ihave_sent (cfg : Config) (st : RouterState) (p : PeerId)
    (msgs : List (TopicHash × List MessageId)) :
    (alLookup p (handle_ihave cfg st p msgs).1.count_sent_iwant).getD 0
      = (alLookup p st.count_sent_iwant).getD 0 + (handle_ihave cfg st p msgs).2.2.length
    ∧ ((alLookup p st.count_sent_iwant).getD 0 ≤ cfg.max_ihave_length →
        (alLookup p (handle_ihave cfg st p msgs).1.count_sent_iwant).getD 0
          ≤ cfg.max_ihave_length) := by
  unfold handle_ihave
  split
  · exact ⟨by simp, fun h => h⟩
  · split
    · exact ⟨by simp, fun h => h⟩
    · split
      · exact ⟨by simp, fun h => h⟩
      · constructor
        · exact handle_ihave_ask_sent cfg _ p _
        · intro h
          exact handle_ihave_ask_sent_le cfg _ p _ h

/-- `handle_ihave` does not touch the counters of other peers. -/
theorem handle_ihave_other (cfg : Config) (st : RouterState) (p q : PeerId)
    (msgs : List (TopicHash × List MessageId)) (hq : q ≠ p) :
    alLookup q (handle_ihave cfg st p msgs).1.count_received_ihave
      = alLookup q st.count_received_ihave
    ∧ alLookup q (handle_ihave cfg st p msgs).1.count_sent_iwant
      = alLookup q st.count_sent_iwant := by
  unfold handle_ihave
  split
  · exact ⟨rfl, rfl⟩
  · split
    · exact ⟨alLookup_alInsert_ne p q _ _ hq, rfl⟩
    · split
      · exact ⟨alLookup_alInsert_ne p q _ _ hq, rfl⟩
      · constructor
        · rw [handle_ihave_ask_received]
          exact alLookup_alInsert_ne p q _ _ hq
        · exact handle_ihave_ask_sent_other cfg _ p q _ hq

/-- Within one heartbeat window, a peer's acted-on IHAVE budget plus its
already consumed budget never exceeds `max_ihave_messages`. -/
theorem run_ihave_acted_bound (cfg : Config) (p : PeerId) :
    ∀ (events : List (PeerId × List (TopicHash × List MessageId))) (st : RouterState),
      acted_count p (run_ihave_events cfg st events).2
        + min ((alLookup p st.count_received_ihave).getD 0) cfg.max_ihave_messages
        ≤ cfg.max_ihave_messages := by
  intro events
  induction events with
  | nil =>
      intro st
      simp [run_ihave_events, acted_count]
  | cons e rest ih =>
      intro st
      obtain ⟨q, msgs⟩ := e
      simp only [run_ihave_events, acted_count_cons]
      by_cases hq : q = p
      · subst hq
        obtain ⟨hor, hacted⟩ := handle_ihave_received cfg st q msgs
        have ihst := ih (handle_ihave cfg st q msgs).1
        cases hcase : (handle_ihave cfg st q msgs).2.1 with
        | true =>
            obtain ⟨heq, hle⟩ := hacted hcase
            rw [heq] at ihst hle
            rw [if_pos ⟨rfl, rfl⟩]
            omega
        | false =>
            simp only [hcase, and_false, if_false, Bool.false_eq_true]
            rcases hor with h | h <;> rw [h] at ihst <;> omega
      · have hoth := (handle_ihave_other cfg st q p msgs (fun hh => hq hh.symm)).1
        have ihst := ih (handle_ihave cfg st q msgs).1
        rw [hoth] at ihst
        rw [if_neg (by simp [hq])]
        omega

/-- Within one heartbeat window, the ids asked from a peer plus its already
consumed quota never exceed `max_ihave_length`. -/
theorem run_ihave_asked_bound (cfg : Config) (p : PeerId) :
    ∀ (events : List (PeerId × List (TopicHash × List MessageId))) (st : RouterState),
      (alLookup p st.count_sent_iwant).getD 0 ≤ cfg.max_ihave_length →
      asked_total p (run_ihave_events cfg st events).2
        + (alLookup p st.count_sent_iwant).getD 0 ≤ cfg.max_ihave_length := by
  intro events
  induction events with
  | nil =>
      intro st h
      simpa [run_ihave_events, asked_total] using h
  | cons e rest ih =>
      intro st h
      obtain ⟨q, msgs⟩ := e
      simp only [run_ihave_events, asked_total_cons]
      by_cases hq : q = p
      · subst hq
        obtain ⟨heq, hle⟩ := handle_ihave_sent cfg st q msgs
        have ihst := ih (handle_ihave cfg st q msgs).1 (hle h)
        rw [heq] at ihst
        rw [if_pos rfl]
        omega
      · have hoth := (handle_ihave_other cfg st q p msgs (fun hh => hq hh.symm)).2
        have ihst := ih (handle_ihave cfg st q msgs).1 (by rw [hoth]; exact h)
        rw [hoth] at ihst
        rw [if_neg (by simp [hq])]
        omega

/-- Claim C9: the heartbeat resets both per-peer gossip counters, and within
any heartbeat interval (modelled as a sequence of `handle_ihave` calls after
the reset) the router acts on at most `max_ihave_messages` IHAVEs from one
peer and asks one peer for at most `max_ihave_length` message ids. -/
theorem claim_C9 (cfg : Config) (st : RouterState) (p : PeerId)
    (events : List (PeerId × List (TopicHash × List MessageId))) :
    (heartbeat_reset_counters st).count_received_ihave = []
    ∧ (heartbeat_reset_counters st).count_sent_iwant = []
    ∧ acted_count p (run_ihave_events cfg (heartbeat_reset_counters st) events).2
        ≤ cfg.max_ihave_messages
    ∧ asked_total p (run_ihave_events cfg (heartbeat_reset_counters st) events).2
        ≤ cfg.max_ihave_length := by
  refine ⟨rfl, rfl, ?_, ?_⟩
  · have h := run_ihave_acted_bound cfg p events (heartbeat_reset_counters st)
    have hz : (alLookup p (heartbeat_reset_counters st).count_received_ihave).getD 0 = 0 := rfl
    rw [hz] at h
    omega
  · have h := run_ihave_asked_bound cfg p events (heartbeat_reset_counters st)
      (by exact Nat.zero_le _)
    have hz : (alLookup p (heartbeat_reset_counters st).count_sent_iwant).getD 0 = 0 := rfl
    rw [hz] at h
    omega

/-! ### RPC fragmentation (`gossipsub/rpc/fragmentation.rs`)

The wire structs come from the prost-generated `rpc/proto.rs`, which is not
under `src/`; their encoded lengths are therefore modelled from the spec's
wire-format section (length-delimited protobuf fields with 1-byte keys, all
field numbers below 16; optional fields encode exactly when present; the
`Message` struct has all fields optional except `topic`). The fragmentation
algorithm itself is translated from `fragmentation.rs`. -/

/-- Modelled from the spec: byte length of an unsigned LEB128 varint.
Fuel-based so it reduces in the kernel; 20 levels cover all `Nat`s used. -/
def varintLenAux : Nat → Nat → Nat
  | 0, _ => 1
  | fuel+1, n => if n < 128 then 1 else 1 + varintLenAux fuel (n / 128)

def varintLen (n : Nat) : Nat := varintLenAux 20 n

/-- Modelled from the spec: total length of a length-delimited protobuf field
with a 1-byte key and a `payload`-byte body. -/
def lenDelim (payload : Nat) : Nat := 1 + varintLen payload + payload

/-- Modelled from the spec: an optional bytes/string field encodes exactly
when present. -/
def optBytesLen : Option (List Nat) → Nat
  | none => 0
  | some b => lenDelim b.length

/-- Modelled from the spec: the gossipsub `Message` protobuf; all fields are
optional except `topic`. `from` is a Lean keyword, hence `from_peer`. -/
structure MessageProto where
  from_peer : Option (List Nat)
  data : Option (List Nat)
  seqno : Option (List Nat)
  topic : List Nat
  signature : Option (List Nat)
  key : Option (List Nat)
deriving DecidableEq

def MessageProto.encoded_len (m : MessageProto) : Nat :=
  optBytesLen m.from_peer + optBytesLen m.data + optBytesLen m.seqno
    + lenDelim m.topic.length + optBytesLen m.signature + optBytesLen m.key

/-- Modelled from the spec: a subscription option (optional bool `subscribe`,
optional string `topic_id`); a present bool field is key + one byte. -/
structure SubOptsProto where
  subscribe : Option Bool
  topic_id : Option (List Nat)
deriving DecidableEq

def SubOptsProto.encoded_len (s : SubOptsProto) : Nat :=
  (match s.subscribe with | none => 0 | some _ => 2) + optBytesLen s.topic_id

/-- Modelled from the spec: IHAVE control entry. -/
structure ControlIHaveProto where
  topic_id : Option (List Nat)
  message_ids : List (List Nat)
deriving DecidableEq

def ControlIHaveProto.encoded_len (c : ControlIHaveProto) : Nat :=
  optBytesLen c.topic_id + (c.message_ids.map (fun i => lenDelim i.length)).sum

/-- Modelled from the spec: IWANT control entry. -/
structure ControlIWantProto where
  message_ids : List (List Nat)
deriving DecidableEq

def ControlIWantProto.encoded_len (c : ControlIWantProto) : Nat :=
  (c.message_ids.map (fun i => lenDelim i.length)).sum

/-- Modelled from the spec: GRAFT control entry. -/
structure ControlGraftProto where
  topic_id : Option (List Nat)
deriving DecidableEq

def ControlGraftProto.encoded_len (c : ControlGraftProto) : Nat :=
  optBytesLen c.topic_id

/-- Modelled from the spec: peer-exchange info inside PRUNE. -/
structure PeerInfoProto where
  peer_id : Option (List Nat)
  signed_peer_record : Option (List Nat)
deriving DecidableEq

def PeerInfoProto.encoded_len (p : PeerInfoProto) : Nat :=
  optBytesLen p.peer_id + optBytesLen p.signed_peer_record

/-- Modelled from the spec: PRUNE control entry; `backoff` is an optional
varint field. -/
structure ControlPruneProto where
  topic_id : Option (List Nat)
  peers : List PeerInfoProto
  backoff : Option Nat
deriving DecidableEq

def ControlPruneProto.encoded_len (c : ControlPruneProto) : Nat :=
  optBytesLen c.topic_id + (c.peers.map (fun p => lenDelim p.encoded_len)).sum
    + (match c.backoff with | none => 0 | some v => 1 + varintLen v)

/-- Modelled from the spec: the control envelope with its four repeated
sub-message fields. -/
structure ControlMessageProto where
  ihave : List ControlIHaveProto
  iwant : List ControlIWantProto
  graft : List ControlGraftProto
  prune : List ControlPruneProto
deriving DecidableEq

def ControlMessageProto.encoded_len (c : ControlMessageProto) : Nat :=
  (c.ihave.map (fun x => lenDelim x.encoded_len)).sum
    + (c.iwant.map (fun x => lenDelim x.encoded_len)).sum
    + (c.graft.map (fun x => lenDelim x.encoded_len)).sum
    + (c.prune.map (fun x => lenDelim x.encoded_len)).sum

/-- Modelled from the spec: the top-level RPC (repeated subscriptions,
repeated publishes, optional control envelope). -/
structure RpcProto where
  subscriptions : List SubOptsProto
  publish : List MessageProto
  control : Option ControlMessageProto
deriving DecidableEq

def RpcProto.encoded_len (r : RpcProto) : Nat :=
  (r.subscriptions.map (fun s => lenDelim s.encoded_len)).sum
    + (r.publish.map (fun m => lenDelim m.encoded_len)).sum
    + (match r.control with | none => 0 | some c => lenDelim c.encoded_len)

/-- `FragmentationError` from `fragmentation.rs`. -/
inductive FragmentationError where
  | messageTooLarge
deriving DecidableEq

/-- Fuel-based base-2 logarithm (floor), used by the float model below. -/
def log2Aux : Nat → Nat → Nat
  | 0, _ => 0
  | fuel+1, n => if n < 2 then 0 else log2Aux fuel (n / 2) + 1

def nlog2 (n : Nat) : Nat := log2Aux 128 n

/-- `(object_size as f64 * 1.05) as usize` from `fragmentation.rs` line 35,
computed exactly: `s` (below 2^53 here) converts to f64 exactly; the f64
closest to 1.05 is `4728779608739021 / 2^52`; the product is rounded to
nearest-even at 53 significant bits; the `usize` cast truncates. -/
def roundF64Mul105 (s : Nat) : Nat :=
  let N := s * 4728779608739021
  let b := nlog2 N
  if b ≤ 52 then N / 2 ^ 52
  else
    let shift := b - 52
    let q := N / 2 ^ shift
    let r := N % 2 ^ shift
    let half := 2 ^ (shift - 1)
    let q2 := if half < r ∨ (r = half ∧ q % 2 = 1) then q + 1 else q
    q2 * 2 ^ shift / 2 ^ 52

/-- `new_rpc` of `fragment_rpc_message`: the empty RPC used to seed chunks. -/
def newRpc : RpcProto := ⟨[], [], none⟩

/-- `ControlMessageProto::default()`. -/
def empty_control : ControlMessageProto := ⟨[], [], [], []⟩

/-- The `create_or_add_rpc!` macro: starts a fresh chunk when the current one
cannot absorb the object's 5%-padded size estimate and is non-empty. The
accumulator keeps chunks in reverse order (current chunk first). -/
def createOrAddRpc (max_size objSize : Nat) (acc : List RpcProto) : List RpcProto :=
  match acc with
  | [] => acc
  | cur :: rest =>
      if max_size < cur.encoded_len + roundF64Mul105 objSize ∧ cur ≠ newRpc then
        newRpc :: cur :: rest
      else
        cur :: rest

def pushPublish (acc : List RpcProto) (m : MessageProto) : List RpcProto :=
  match acc with
  | [] => acc
  | cur :: rest => { cur with publish := cur.publish ++ [m] } :: rest

def pushSubscription (acc : List RpcProto) (s : SubOptsProto) : List RpcProto :=
  match acc with
  | [] => acc
  | cur :: rest => { cur with subscriptions := cur.subscriptions ++ [s] } :: rest

/-- The `add_item!` loop over `rpc.publish`: any item with
`encoded_len + 2 > max_size` aborts with `MessageTooLarge`. -/
def addPublishList (max_size : Nat) :
    List MessageProto → List RpcProto → Except FragmentationError (List RpcProto)
  | [], acc => .ok acc
  | m :: ms, acc =>
      if max_size < m.encoded_len + 2 then .error .messageTooLarge
      else addPublishList max_size ms (pushPublish (createOrAddRpc max_size m.encoded_len acc) m)

/-- The `add_item!` loop over `rpc.subscriptions`. -/
def addSubList (max_size : Nat) :
    List SubOptsProto → List RpcProto → Except FragmentationError (List RpcProto)
  | [], acc => .ok acc
  | s :: ss, acc =>
      if max_size < s.encoded_len + 2 then .error .messageTooLarge
      else addSubList max_size ss (pushSubscription (createOrAddRpc max_size s.encoded_len acc) s)

def pushIhave (acc : List RpcProto) (ih : ControlIHaveProto) : List RpcProto :=
  match acc with
  | [] => acc
  | cur :: rest =>
      { cur with control := some (match cur.control with
          | some c => { c with ihave := c.ihave ++ [ih] }
          | none => { empty_control with ihave := [ih] }) } :: rest

def pushIwant (acc : List RpcProto) (iw : ControlIWantProto) : List RpcProto :=
  match acc with
  | [] => acc
  | cur :: rest =>
      { cur with control := some (match cur.control with
          | some c => { c with iwant := c.iwant ++ [iw] }
          | none => { empty_control with iwant := [iw] }) } :: rest

def pushGraft (acc : List RpcProto) (g : ControlGraftProto) : List RpcProto :=
  match acc with
  | [] => acc
  | cur :: rest =>
      { cur with control := some (match cur.control with
          | some c => { c with graft := c.graft ++ [g] }
          | none => { empty_control with graft := [g] }) } :: rest

def pushPrune (acc : List RpcProto) (pr : ControlPruneProto) : List RpcProto :=
  match acc with
  | [] => acc
  | cur :: rest =>
      { cur with control := some (match cur.control with
          | some c => { c with prune := c.prune ++ [pr] }
          | none => { empty_control with prune := [pr] }) } :: rest

/-- The control-fragmentation loops of `fragmentation.rs` lines 79-122: each
control item is placed via `create_or_add_rpc!` WITHOUT any individual size
check. -/
def addIhaveList (max_size : Nat) : List ControlIHaveProto → List RpcProto → List RpcProto
  | [], acc => acc
  | ih :: rest, acc =>
      addIhaveList max_size rest (pushIhave (createOrAddRpc max_size ih.encoded_len acc) ih)

def addIwantList (max_size : Nat) : List ControlIWantProto → List RpcProto → List RpcProto
  | [], acc => acc
  | iw :: rest, acc =>
      addIwantList max_size rest (pushIwant (createOrAddRpc max_size iw.encoded_len acc) iw)

def addGraftList (max_size : Nat) : List ControlGraftProto → List RpcProto → List RpcProto
  | [], acc => acc
  | g :: rest, acc =>
      addGraftList max_size rest (pushGraft (createOrAddRpc max_size g.encoded_len acc) g)

def addPruneList (max_size : Nat) : List ControlPruneProto → List RpcProto → List RpcProto
  | [], acc => acc
  | pr :: rest, acc =>
      addPruneList max_size rest (pushPrune (createOrAddRpc max_size pr.encoded_len acc) pr)

def setControl (acc : List RpcProto) (c : ControlMessageProto) : List RpcProto :=
  match acc with
  | [] => acc
  | cur :: rest => { cur with control := some c } :: rest

/-- Control handling of `fragmentation.rs` lines 75-128: a control envelope
within the limit is attached whole, otherwise its items are distributed. -/
def handleControl (max_size : Nat) (acc : List RpcProto) :
    Option ControlMessageProto → List RpcProto
  | none => acc
  | some control =>
      if max_size < control.encoded_len + 2 then
        addPruneList max_size control.prune
          (addGraftList max_size control.graft
            (addIwantList max_size control.iwant
              (addIhaveList max_size control.ihave acc)))
      else
        setControl (createOrAddRpc max_size control.encoded_len acc) control

/-- `fragment_rpc_message` (`fragmentation.rs` lines 11-131). The early
return uses a STRICT `<` comparison. The reversed accumulator is restored to
emission order at the end. -/
def fragment_rpc_message (rpc : RpcProto) (max_size : Nat) :
    Except FragmentationError (List RpcProto) :=
  if rpc.encoded_len < max_size then .ok [rpc]
  else
    match addPublishList max_size rpc.publish [newRpc] with
    | .error e => .error e
    | .ok acc1 =>
        match addSubList max_size rpc.subscriptions acc1 with
        | .error e => .error e
        | .ok acc2 => .ok (handleControl max_size acc2 rpc.control).reverse

theorem addPublishList_error (max_size : Nat) (m : MessageProto)
    (hm : max_size < m.encoded_len + 2) :
    ∀ (ms : List MessageProto) (acc : List RpcProto), m ∈ ms →
      addPublishList max_size ms acc = .error .messageTooLarge := by
  intro ms
  induction ms with
  | nil =>
      intro acc h
      exact absurd h (List.not_mem_nil m)
  | cons a ms ih =>
      intro acc hmem
      by_cases ha : max_size < a.encoded_len + 2
      · simp only [addPublishList]
        rw [if_pos ha]
      · rcases List.mem_cons.mp hmem with rfl | hmem2
        · exact absurd hm ha
        · simp only [addPublishList]
          rw [if_neg ha]
          exact ih _ hmem2

theorem addSubList_error (max_size : Nat) (s : SubOptsProto)
    (hs : max_size < s.encoded_len + 2) :
    ∀ (ss : List SubOptsProto) (acc : List RpcProto), s ∈ ss →
      addSubList max_size ss acc = .error .messageTooLarge := by
  intro ss
  induction ss with
  | nil =>
      intro acc h
      exact absurd h (List.not_mem_nil s)
  | cons a ss ih =>
      intro acc hmem
      by_cases ha : max_size < a.encoded_len + 2
      · simp only [addSubList]
        rw [if_pos ha]
      · rcases List.mem_cons.mp hmem with rfl | hmem2
        · exact absurd hs ha
        · simp only [addSubList]
          rw [if_neg ha]
          exact ih _ hmem2

/-- Claim C7 (amended): an RPC whose encoded length is strictly below the
maximum is emitted unchanged as a one-element list (at equality it is
fragmented instead); when the RPC is at or above the maximum, any single
publish or SUBSCRIPTION sub-message whose encoded length plus the 2-byte
overhead exceeds the maximum makes the whole operation fail with
`MessageTooLarge` (control sub-messages are never size-checked, so an
oversized control item instead yields a chunk exceeding the maximum). -/
theorem claim_C7 :
    (∀ (rpc : RpcProto) (max_size : Nat), rpc.encoded_len < max_size →
        fragment_rpc_message rpc max_size = .ok [rpc])
    ∧ (∀ (rpc : RpcProto) (max_size : Nat) (m : MessageProto),
        m ∈ rpc.publish → max_size < m.encoded_len + 2 →
        ¬ rpc.encoded_len < max_size →
        fragment_rpc_message rpc max_size = .error .messageTooLarge)
    ∧ (∀ (rpc : RpcProto) (max_size : Nat) (s : SubOptsProto),
        s ∈ rpc.subscriptions → max_size < s.encoded_len + 2 →
        ¬ rpc.encoded_len < max_size →
        fragment_rpc_message rpc max_size = .error .messageTooLarge) := by
  refine ⟨?_, ?_, ?_⟩
  · intro rpc max_size h
    simp [fragment_rpc_message, h]
  · intro rpc max_size m hmem hsz hbig
    simp only [fragment_rpc_message]
    rw [if_neg hbig]
    rw [addPublishList_error max_size m hsz rpc.publish [newRpc] hmem]
  · intro rpc max_size s hmem hsz hbig
    simp only [fragment_rpc_message]
    rw [if_neg hbig]
    cases hps : addPublishList max_size rpc.publish [newRpc] with
    | error e => cases e; rfl
    | ok acc1 =>
        simp [addSubList_error max_size s hsz rpc.subscriptions acc1 hmem]

def mBig : MessageProto :=
  ⟨none, none, none, List.replicate 10 0, none, none⟩

def rpcPubBig : RpcProto := ⟨[], [mBig], none⟩

def sBig : SubOptsProto := ⟨some true, some (List.replicate 10 0)⟩

def rpcSubBig : RpcProto := ⟨[sBig], [], none⟩

/-- Concrete instances of the three conjuncts of `claim_C7`. -/
theorem claim_C7_witness :
    fragment_rpc_message newRpc 1 = .ok [newRpc]
    ∧ fragment_rpc_message rpcPubBig 5 = .error .messageTooLarge
    ∧ fragment_rpc_message rpcSubBig 5 = .error .messageTooLarge :=
  ⟨claim_C7.1 newRpc 1 (by decide),
   claim_C7.2.1 rpcPubBig 5 mBig (by decide) (by decide) (by decide),
   claim_C7.2.2 rpcSubBig 5 sBig (by decide) (by decide) (by decide)⟩

def mBoundary : MessageProto :=
  ⟨none, none, none, List.replicate 98 0, none, none⟩

/-- Two 100-byte publish messages: encoded length exactly 204. -/
def rpcBoundary : RpcProto := ⟨[], [mBoundary, mBoundary], none⟩

def ihBig : ControlIHaveProto := ⟨none, List.replicate 12 (List.replicate 22 0)⟩

def rpcCtl : RpcProto := ⟨[], [], some ⟨[ihBig], [], [], []⟩⟩

def chunkCtl : RpcProto := ⟨[], [], some ⟨[ihBig], [], [], []⟩⟩

/-- At the boundary (encoded length exactly the maximum) the RPC is NOT
emitted unchanged, and an oversized IHAVE control item is not rejected with
`MessageTooLarge` but produces a chunk exceeding the maximum. -/
theorem claim_C7_counterexample :
    RpcProto.encoded_len rpcBoundary = 204
    ∧ fragment_rpc_message rpcBoundary 204 ≠ .ok [rpcBoundary]
    ∧ ¬ RpcProto.encoded_len rpcCtl < 100
    ∧ 100 < ControlIHaveProto.encoded_len ihBig + 2
    ∧ fragment_rpc_message rpcCtl 100 = .ok [chunkCtl]
    ∧ 100 < RpcProto.encoded_len chunkCtl := by
  decide

end WakuVerify
